import Mathlib

/-!
Verification of the linera-poker engine against its specification.

The definitions below are a shallow embedding of the Rust sources:
chip amounts (a `u64` with saturating arithmetic), seat indices and
player ids are modelled as `Nat`, hash maps as association
lists whose order makes the (unspecified) iteration order explicit, and
fallible calls return an error component alongside the (possibly
partially updated) state, mirroring where the Rust code mutates in place.
-/

namespace Poker

/-!
Seat indices (`SeatIndex = u8` in the source), player ids
(`PlayerId = u64`) and chip amounts (`Chips(pub u64)`, whose saturating
subtraction matches truncated `Nat` subtraction) are all modelled as
`Nat`.
-/

/-! ## Side pots (`src/engine/side_pots.rs`) -/

/-- `SidePot { amount, eligible_seats }` from `side_pots.rs`. -/
structure SidePot where
  amount : Nat
  eligible_seats : List Nat
deriving DecidableEq, Repr

/-- The loop body of `compute_side_pots`: walk across the entries sorted by
contribution; each strictly new level emits one pot layer whose eligible
seats are all entries (folded or not) with contribution at or above the
level. `entries` is the full sorted list (the Rust loop re-scans it for
each level); the second argument is the remaining suffix being iterated,
the third is `prev_level`. The layer amount is the u64 product
`level_diff.0 * eligible.len() as u64`, which wraps in release builds,
hence the explicit `% 2 ^ 64`. -/
def side_pots_loop (entries : List (Nat × Nat)) :
    List (Nat × Nat) → Nat → List SidePot
  | [], _ => []
  | (_, amount) :: rest, prevLevel =>
    if amount = prevLevel then
      side_pots_loop entries rest prevLevel
    else
      let eligible := (entries.filter (fun e => amount ≤ e.2)).map (fun e => e.1)
      if eligible.isEmpty then
        side_pots_loop entries rest amount
      else
        { amount := (amount - prevLevel) * eligible.length % 2 ^ 64,
          eligible_seats := eligible } :: side_pots_loop entries rest amount

/-- The comparator of `entries.sort_by_key(|(_, c)| c.0)`: ascending by the
contributed amount. -/
def byAmount (a b : Nat × Nat) : Prop := a.2 ≤ b.2

instance : DecidableRel byAmount := fun a b => Nat.decLe a.2 b.2

instance : IsTotal (Nat × Nat) byAmount := ⟨fun a b => Nat.le_total a.2 b.2⟩

instance : IsTrans (Nat × Nat) byAmount := ⟨fun _ _ _ h1 h2 => Nat.le_trans h1 h2⟩

/-- `compute_side_pots` from `side_pots.rs`. The seat-to-chips hash-map
input is modelled as an association list making the iteration order
explicit; the function first drops zero contributions, then sorts by
amount ascending (Rust `sort_by_key` is a stable sort, modelled by the
stable `List.insertionSort`) and layers the pots. -/
def compute_side_pots (contributions : List (Nat × Nat)) : List SidePot :=
  let entries := contributions.filter (fun e => e.2 ≠ 0)
  if entries.isEmpty then []
  else
    let sorted := entries.insertionSort byAmount
    side_pots_loop sorted sorted 0

/-! ## Cards (`src/domain/card.rs`) -/

/-- Card suit. -/
inductive Suit
  | Clubs
  | Diamonds
  | Hearts
  | Spades
deriving DecidableEq, Repr

/-- A playing card. -/
structure Card where
  rank : Nat
  suit : Suit
deriving DecidableEq, Repr

/-! ## Hand evaluator (`src/eval/lookup_tables.rs`, `hand_rank.rs`,
`evaluator.rs`) -/

/-- `rank_to_bit`: bit 0 is the deuce, bit 12 the ace. -/
def rank_to_bit (r : Nat) : Nat := 2 ^ (r - 2)

/-- `mask_from_ranks`. -/
def mask_from_ranks (ranks : List Nat) : Nat :=
  ranks.foldl (fun m r => m ||| rank_to_bit r) 0

/-- `STRAIGHT_MASKS`, indexed by the straight's position (0 = wheel,
9 = broadway). -/
def straight_mask (i : Nat) : Nat :=
  match i with
  | 0 => mask_from_ranks [14, 2, 3, 4, 5]
  | 1 => mask_from_ranks [2, 3, 4, 5, 6]
  | 2 => mask_from_ranks [3, 4, 5, 6, 7]
  | 3 => mask_from_ranks [4, 5, 6, 7, 8]
  | 4 => mask_from_ranks [5, 6, 7, 8, 9]
  | 5 => mask_from_ranks [6, 7, 8, 9, 10]
  | 6 => mask_from_ranks [7, 8, 9, 10, 11]
  | 7 => mask_from_ranks [8, 9, 10, 11, 12]
  | 8 => mask_from_ranks [9, 10, 11, 12, 13]
  | _ => mask_from_ranks [10, 11, 12, 13, 14]

/-- The high card of the straight at index `i` of `STRAIGHT_MASKS`
(the wheel is 5-high). -/
def straight_high_of_index (i : Nat) : Nat :=
  match i with
  | 0 => 5
  | 1 => 6
  | 2 => 7
  | 3 => 8
  | 4 => 9
  | 5 => 10
  | 6 => 11
  | 7 => 12
  | 8 => 13
  | 9 => 14
  | _ => 5

/-- `detect_straight`: scan the ten straight masks from the strongest
(broadway) down, returning the high card of the first one fully contained
in `rank_mask`. -/
def detect_straight (rank_mask : Nat) : Option Nat :=
  ((List.range 10).reverse.find?
      (fun i => rank_mask &&& straight_mask i = straight_mask i)).map
    straight_high_of_index

/-- Number of cards of rank `r` (the `rank_counts` array of
`evaluate_5card_hand`). -/
def count_rank (cards : List Card) (r : Nat) : Nat :=
  (cards.filter (fun c => c.rank = r)).length

/-- Number of cards of suit `s` (the `suit_counts` array). -/
def count_suit (cards : List Card) (s : Suit) : Nat :=
  (cards.filter (fun c => c.suit = s)).length

/-- The 13-bit rank mask accumulated over the cards. -/
def rank_mask_of (cards : List Card) : Nat :=
  cards.foldl (fun m c => m ||| rank_to_bit c.rank) 0

/-- `is_flush = suit_counts.iter().any(|&c| c == 5)`. -/
def is_flush (cards : List Card) : Bool :=
  [Suit.Clubs, Suit.Diamonds, Suit.Hearts, Suit.Spades].any
    (fun s => count_suit cards s = 5)

/-- The `rc_list` of `evaluate_5card_hand` before sorting: one
`(rank, count)` pair per present rank, scanned from Ace down to Two. -/
def rc_list (cards : List Card) : List (Nat × Nat) :=
  ((List.range 13).map (fun i => 14 - i)).filterMap (fun r =>
    let c := count_rank cards r
    if c = 0 then none else some (r, c))

/-- The comparator of `rc_list.sort_by`: count descending, then rank
descending. -/
def rcOrder (a b : Nat × Nat) : Prop :=
  b.2 < a.2 ∨ (a.2 = b.2 ∧ b.1 ≤ a.1)

instance : DecidableRel rcOrder := fun a b => by
  unfold rcOrder; infer_instance

instance : IsTotal (Nat × Nat) rcOrder :=
  ⟨fun a b => by
    rcases Nat.lt_trichotomy a.2 b.2 with h | h | h
    · exact Or.inr (Or.inl h)
    · rcases Nat.le_total a.1 b.1 with h2 | h2
      · exact Or.inr (Or.inr ⟨h.symm, h2⟩)
      · exact Or.inl (Or.inr ⟨h, h2⟩)
    · exact Or.inl (Or.inl h)⟩

instance : IsTrans (Nat × Nat) rcOrder :=
  ⟨fun a b c h1 h2 => by
    rcases h1 with h1 | ⟨e1, le1⟩
    · rcases h2 with h2 | ⟨e2, le2⟩
      · exact Or.inl (Nat.lt_trans h2 h1)
      · exact Or.inl (e2 ▸ h1)
    · rcases h2 with h2 | ⟨e2, le2⟩
      · exact Or.inl (e1 ▸ h2)
      · exact Or.inr ⟨e1.trans e2, Nat.le_trans le2 le1⟩⟩

instance : IsAntisymm (Nat × Nat) rcOrder :=
  ⟨fun a b h1 h2 => by
    rcases h1 with h1 | ⟨e1, le1⟩
    · rcases h2 with h2 | ⟨e2, le2⟩
      · exact absurd h1 (Nat.lt_asymm h2)
      · exact absurd (e2 ▸ h1) (Nat.lt_irrefl _)
    · rcases h2 with h2 | ⟨e2, le2⟩
      · exact absurd (e1 ▸ h2) (Nat.lt_irrefl _)
      · exact Prod.ext (Nat.le_antisymm le2 le1) e1⟩

/-- `rc_list` sorted by count descending, then rank descending
(Rust's stable `sort_by`, modelled by the stable `insertionSort`). -/
def rc_sorted (cards : List Card) : List (Nat × Nat) :=
  (rc_list cards).insertionSort rcOrder

/-- Descending order on ranks, the comparator of
`flush_cards.sort_by(|a, b| b.rank.cmp(&a.rank))`. -/
def rankGe (a b : Nat) : Prop := b ≤ a

instance : DecidableRel rankGe := fun a b => Nat.decLe b a

instance : IsTotal Nat rankGe := ⟨fun a b => Nat.le_total b a⟩

instance : IsTrans Nat rankGe := ⟨fun _ _ _ h1 h2 => Nat.le_trans h2 h1⟩

instance : IsAntisymm Nat rankGe := ⟨fun _ _ h1 h2 => Nat.le_antisymm h2 h1⟩

/-- The card ranks sorted descending (used by the flush branch, which
sorts the five cards by rank and reads their ranks off). -/
def ranks_desc (cards : List Card) : List Nat :=
  (cards.map Card.rank).insertionSort rankGe

/-- `HandRank::from_category_and_ranks`: 4 category bits above five 4-bit
rank fields, strongest first (`hand_rank.rs`). Categories are the
`HandCategory` discriminants: HighCard 0 … StraightFlush 8. -/
def from_category_and_ranks (category : Nat) (ranks : List Nat) : Nat :=
  ((category &&& 15) <<< 20)
    ||| (ranks.getD 0 2 <<< 16)
    ||| (ranks.getD 1 2 <<< 12)
    ||| (ranks.getD 2 2 <<< 8)
    ||| (ranks.getD 3 2 <<< 4)
    ||| ranks.getD 4 2

/-- `straight_rank_array`. -/
def straight_rank_array (high : Nat) : List Nat :=
  match high with
  | 5 => [5, 4, 3, 2, 14]
  | 6 => [6, 5, 4, 3, 2]
  | 7 => [7, 6, 5, 4, 3]
  | 8 => [8, 7, 6, 5, 4]
  | 9 => [9, 8, 7, 6, 5]
  | 10 => [10, 9, 8, 7, 6]
  | 11 => [11, 10, 9, 8, 7]
  | 12 => [12, 11, 10, 9, 8]
  | 13 => [13, 12, 11, 10, 9]
  | 14 => [14, 13, 12, 11, 10]
  | _ => [high, 4, 3, 2, 2]

/-- Pad a rank list with deuces to length 5 and keep the first five
(the high-card branch pushes `Nat::Two` while shorter than 5). -/
def pad_to5 (rs : List Nat) : List Nat :=
  [rs.getD 0 2, rs.getD 1 2, rs.getD 2 2, rs.getD 3 2, rs.getD 4 2]

/-- The classification cascade of `evaluate_5card_hand` after the
straight-flush case, as a function of the canonical per-hand data:
`flush` flag, straight high card, sorted rank counts, and descending
ranks. Mirrors the branch order FourOfAKind → FullHouse → Flush →
Straight → ThreeOfAKind → TwoPair → OnePair → HighCard. -/
def eval5_rest (flush : Bool) (shigh : Option Nat)
    (rc : List (Nat × Nat)) (rdesc : List Nat) : Nat :=
  let pattern := rc.map (fun e => e.2)
  if pattern = [4, 1] then
    from_category_and_ranks 7 [(rc.getD 0 (2, 0)).1, (rc.getD 1 (2, 0)).1, 2, 2, 2]
  else if pattern = [3, 2] then
    from_category_and_ranks 6 [(rc.getD 0 (2, 0)).1, (rc.getD 1 (2, 0)).1, 2, 2, 2]
  else if flush then
    from_category_and_ranks 5 (pad_to5 rdesc)
  else
    match shigh with
    | some high => from_category_and_ranks 4 (straight_rank_array high)
    | none =>
      if pattern = [3, 1, 1] then
        from_category_and_ranks 3
          [(rc.getD 0 (2, 0)).1, (rc.getD 1 (2, 0)).1, (rc.getD 2 (2, 0)).1, 2, 2]
      else if pattern = [2, 2, 1] then
        from_category_and_ranks 2
          [(rc.getD 0 (2, 0)).1, (rc.getD 1 (2, 0)).1, (rc.getD 2 (2, 0)).1, 2, 2]
      else if pattern = [2, 1, 1, 1] then
        from_category_and_ranks 1
          [(rc.getD 0 (2, 0)).1, (rc.getD 1 (2, 0)).1, (rc.getD 2 (2, 0)).1,
            (rc.getD 3 (2, 0)).1, 2]
      else
        from_category_and_ranks 0
          (pad_to5 ((rc.map (fun e => e.1)).insertionSort rankGe))

/-- `evaluate_5card_hand` from `evaluator.rs`: straight flush first, then
the `eval5_rest` cascade. -/
def evaluate_5card_hand (cards : List Card) : Nat :=
  match detect_straight (rank_mask_of cards), is_flush cards with
  | some high, true => from_category_and_ranks 8 (straight_rank_array high)
  | shigh, flush => eval5_rest flush shigh (rc_sorted cards) (ranks_desc cards)

/-- The `best` accumulator step of `best_of_all_5card_combinations`:
replace the best rank seen so far when the new rank is strictly
greater. -/
def best_step (best : Option Nat) (r : Nat) : Option Nat :=
  match best with
  | none => some r
  | some b => if b < r then some r else some b

/-- `best_of_all_5card_combinations`: evaluate every 5-card
sub-combination and keep the maximum; `none` models the panic when fewer
than five cards are supplied. -/
def best_of_all_5card_combinations (cards : List Card) : Option Nat :=
  ((cards.sublistsLen 5).map evaluate_5card_hand).foldl best_step none

/-- `evaluate_best_hand`: the best 5-card hand from hole cards plus
board. -/
def evaluate_best_hand (hole board : List Card) : Option Nat :=
  best_of_all_5card_combinations (hole ++ board)

instance : RightCommutative (fun (m : Nat) (c : Card) => m ||| rank_to_bit c.rank) :=
  ⟨fun b x y => by rw [Nat.or_assoc, Nat.or_assoc, Nat.or_comm (rank_to_bit x.rank)]⟩

instance : RightCommutative best_step :=
  ⟨fun b x y => by
    cases b with
    | none =>
      simp only [best_step]
      split_ifs <;> first | rfl | (congr 1; omega)
    | some b =>
      by_cases h1 : b < x <;> by_cases h2 : b < y <;>
        simp only [best_step, h1, h2, if_true, if_false] <;>
          split_ifs <;> first | rfl | (congr 1; omega)⟩

/-! ## Players, table, betting (`src/domain/*.rs`, `src/engine/betting.rs`) -/

/-- `Street` from `domain/hand.rs`. -/
inductive Street
  | Preflop
  | Flop
  | Turn
  | River
  | Showdown
deriving DecidableEq, Repr

/-- `PlayerStatus` from `domain/player.rs`. -/
inductive PlayerStatus
  | Active
  | Folded
  | AllIn
  | SittingOut
  | Busted
deriving DecidableEq, Repr

/-- `PlayerAtTable` from `domain/player.rs`. -/
structure PlayerAtTable where
  player_id : Nat
  stack : Nat
  current_bet : Nat
  status : PlayerStatus
  hole_cards : List Card
deriving DecidableEq, Repr

/-- `AnteType` from `domain/blinds.rs`. -/
inductive AnteType
  | None
  | Classic
  | BigBlind
deriving DecidableEq, Repr

/-- `TableStakes` from `domain/table.rs`. -/
structure TableStakes where
  small_blind : Nat
  big_blind : Nat
  ante_type : AnteType
  ante : Nat
deriving DecidableEq, Repr

/-- `Table` from `domain/table.rs`, with the fields the engine reads and
writes (`name`, `table_type` and the feature flags play no role in any
claim and are omitted; `config` is flattened to its stakes and
`max_seats = seats.length` as constructed by `Table::new`). -/
structure Table where
  id : Nat
  stakes : TableStakes
  seats : List (Option PlayerAtTable)
  board : List Card
  dealer_button : Option Nat
  current_hand_id : Option Nat
  street : Street
  hand_in_progress : Bool
  total_pot : Nat
deriving DecidableEq, Repr

/-- `Table::max_seats` (the engine always walks `0..max_seats` over the
`seats` vector, whose length is `max_seats`). -/
def Table.max_seats (t : Table) : Nat := t.seats.length

/-- `Table::seated_count`. -/
def Table.seated_count (t : Table) : Nat :=
  (t.seats.filter (fun s => s.isSome)).length

/-- `PlayerActionKind` from `engine/actions.rs`. -/
inductive PlayerActionKind
  | Fold
  | Check
  | Call
  | Bet (amount : Nat)
  | Raise (total_bet : Nat)
  | AllIn
deriving DecidableEq, Repr

/-- `PlayerAction` from `engine/actions.rs`. -/
structure PlayerAction where
  player_id : Nat
  seat : Nat
  kind : PlayerActionKind
deriving DecidableEq, Repr

/-- `EngineError` from `engine/errors.rs` (the `Internal` message string
is dropped). -/
inductive EngineError
  | TableNotFound (id : Nat)
  | InvalidSeat (seat : Nat)
  | EmptySeat
  | PlayerNotAtTable (id : Nat)
  | NotEnoughPlayers
  | HandAlreadyInProgress
  | NoActiveHand
  | NotPlayersTurn (id : Nat)
  | IllegalAction
  | NotEnoughChips
  | RaiseTooSmall
  | CannotCheck
  | CannotCall
  | Internal
deriving DecidableEq, Repr

/-- `BettingState` from `engine/betting.rs`. -/
structure BettingState where
  current_bet : Nat
  min_raise : Nat
  last_aggressor : Option Nat
  street : Street
  to_act : List Nat
deriving DecidableEq, Repr

/-- `BettingState::new`. -/
def BettingState.new (street : Street) (current_bet min_raise : Nat)
    (to_act : List Nat) : BettingState :=
  { current_bet, min_raise, last_aggressor := none, street, to_act }

/-- `BettingState::mark_acted`: drop the seat from `to_act`. -/
def BettingState.mark_acted (b : BettingState) (seat : Nat) : BettingState :=
  { b with to_act := b.to_act.filter (fun s => s ≠ seat) }

/-- `BettingState::on_raise`. -/
def BettingState.on_raise (b : BettingState) (seat : Nat)
    (new_bet raise_size : Nat) (new_to_act : List Nat) : BettingState :=
  { b with current_bet := new_bet, min_raise := raise_size,
           last_aggressor := some seat, to_act := new_to_act }

/-- `BettingState::is_round_complete`. -/
def BettingState.is_round_complete (b : BettingState) : Bool :=
  b.to_act.isEmpty

/-! ## Action validation (`src/engine/validation.rs`) -/

/-- Rust's primitive `u64` subtraction `a - b` (release semantics: wraps
modulo 2^64; the two raw subtractions in `validate_action` and the raise
arm of `apply_action` use it unguarded). -/
def u64_sub (a b : Nat) : Nat := (a + 2 ^ 64 - b % 2 ^ 64) % 2 ^ 64

/-- `diff_to_call` from `validation.rs`. -/
def diff_to_call (player : PlayerAtTable) (betting : BettingState) : Nat :=
  if betting.current_bet ≤ player.current_bet then 0
  else betting.current_bet - player.current_bet

/-- `validate_action` from `validation.rs`; `none` is `Ok(())`. -/
def validate_action (player : PlayerAtTable) (action : PlayerActionKind)
    (betting : BettingState) : Option EngineError :=
  if player.status = PlayerStatus.Folded ∨ player.status = PlayerStatus.Busted
      ∨ player.status = PlayerStatus.SittingOut then
    some .IllegalAction
  else
    let stack := player.stack
    let to_call := diff_to_call player betting
    match action with
    | .Fold => none
    | .Check =>
      if betting.current_bet = player.current_bet then none
      else some .CannotCheck
    | .Call =>
      if to_call = 0 then some .CannotCall
      else none
    | .Bet amount =>
      if 0 < betting.current_bet then some .IllegalAction
      else if stack < amount then some .NotEnoughChips
      else if amount = 0 then some .IllegalAction
      else none
    | .Raise total_bet =>
      if betting.current_bet = 0 then some .IllegalAction
      else if total_bet ≤ betting.current_bet then some .IllegalAction
      else
        let raise_size := u64_sub total_bet betting.current_bet
        if raise_size < betting.min_raise then some .RaiseTooSmall
        else
          let diff := u64_sub total_bet player.current_bet
          if stack < diff then some .NotEnoughChips
          else none
    | .AllIn =>
      if stack = 0 then some .IllegalAction
      else none

/-! ## Time controller (`src/time_ctrl/*.rs`) -/

/-- `TimeRules`; the `i32` second counts are modelled as `Int`. -/
structure TimeRules where
  base_action_secs : Int
  bank_per_player_secs : Int
  bank_step_secs : Int
deriving DecidableEq, Repr

/-- `PlayerTimeBank` from `time_bank.rs`. -/
structure PlayerTimeBank where
  remaining_secs : Int
deriving DecidableEq, Repr

/-- `PlayerTimeBank::grant`: hand out up to `requested` seconds, returning
the updated bank and the amount actually granted. -/
def PlayerTimeBank.grant (b : PlayerTimeBank) (requested : Int) :
    PlayerTimeBank × Int :=
  if requested ≤ 0 ∨ b.remaining_secs ≤ 0 then (b, 0)
  else
    let g := min requested b.remaining_secs
    (⟨b.remaining_secs - g⟩, g)

/-- `TimeBank` from `time_bank.rs`: the player hash map as an association
list. -/
structure TimeBank where
  players : List (Nat × PlayerTimeBank)
deriving DecidableEq, Repr

/-- Hash-map lookup. -/
def TimeBank.lookup (bank : TimeBank) (pid : Nat) : Option PlayerTimeBank :=
  (bank.players.find? (fun e => e.1 = pid)).map (fun e => e.2)

/-- In-place update of an existing entry. -/
def TimeBank.set (bank : TimeBank) (pid : Nat) (b : PlayerTimeBank) : TimeBank :=
  ⟨bank.players.map (fun e => if e.1 = pid then (e.1, b) else e)⟩

/-- `TimeBank::grant_for_turn`: grant from the player's bank when it
exists, else nothing. -/
def TimeBank.grant_for_turn (bank : TimeBank) (pid : Nat) (requested : Int) :
    TimeBank × Int :=
  if requested ≤ 0 then (bank, 0)
  else
    match bank.lookup pid with
    | some pb =>
      let res := pb.grant requested
      (bank.set pid res.1, res.2)
    | none => (bank, 0)

/-- `ExtraTimeGrant` from `extra_time.rs`. -/
structure ExtraTimeGrant where
  granted_secs : Int
deriving DecidableEq, Repr

/-- `TurnClock` from `clock.rs`. -/
structure TurnClock where
  current_player : Option Nat
  remaining_action_secs : Int
  remaining_extra_secs : Int
deriving DecidableEq, Repr

/-- `TurnClock::start_turn`: set the current player, reset the base time
to `base_action_secs.max(0)`, immediately pre-grant one `bank_step_secs`
packet from the player's time bank into `remaining_extra_secs`, and
report the grant. -/
def TurnClock.start_turn (_clock : TurnClock) (player_id : Nat)
    (rules : TimeRules) (bank : TimeBank) :
    TurnClock × TimeBank × ExtraTimeGrant :=
  let step := max rules.bank_step_secs 0
  let res := if 0 < step then bank.grant_for_turn player_id step else (bank, 0)
  ({ current_player := some player_id,
     remaining_action_secs := max rules.base_action_secs 0,
     remaining_extra_secs := res.2 },
   res.1,
   if 0 < res.2 then ⟨res.2⟩ else ⟨0⟩)

/-! ## Tournament (`src/domain/tournament.rs`) -/

/-- `TournamentStatus`. -/
inductive TournamentStatus
  | Registering
  | Running
  | OnBreak
  | Finished
deriving DecidableEq, Repr

/-- `PlayerRegistration`. -/
structure PlayerRegistration where
  player_id : Nat
  total_chips : Nat
  is_busted : Bool
  table_id : Option Nat
  seat_index : Option Nat
  finishing_place : Option Nat
deriving DecidableEq, Repr

/-- `TournamentError` (payload-carrying variants keep their ids; the
`InvalidConfig` reason string is dropped). -/
inductive TournamentError
  | TournamentNotFound (tournament_id : Nat)
  | TournamentFull (tournament_id : Nat)
  | AlreadyRegistered (player_id : Nat) (tournament_id : Nat)
  | NotRegistered (player_id : Nat) (tournament_id : Nat)
  | AlreadyBusted (player_id : Nat) (tournament_id : Nat)
  | CannotBustLastPlayer (tournament_id : Nat)
  | InvalidStatus (expected : TournamentStatus) (found : TournamentStatus)
  | InvalidStatusForStart (status : TournamentStatus)
  | InvalidConfig
deriving DecidableEq, Repr

/-- `Tournament`, with the fields read or written by `register_player`,
`mark_player_busted` and `check_and_finish_if_needed`; the config is
flattened to the fields those methods consult (`starting_stack`,
`max_players`, and the re-entry settings), the registrations hash map is
an association list, and the timing fields play no role in these
claims. -/
structure Tournament where
  id : Nat
  owner : Nat
  starting_stack : Nat
  max_players : Nat
  reentry_allowed : Bool
  max_entries_per_player : Nat
  status : TournamentStatus
  registrations : List (Nat × PlayerRegistration)
  current_level : Nat
  total_entries : Nat
  finished_count : Nat
  winner_id : Option Nat
deriving DecidableEq, Repr

instance {e a : Type} [DecidableEq e] [DecidableEq a] :
    DecidableEq (Except e a) := fun
  | .ok x, .ok y =>
      if h : x = y then .isTrue (by rw [h])
      else .isFalse (fun hc => h (Except.ok.inj hc))
  | .ok _, .error _ => .isFalse Except.noConfusion
  | .error _, .ok _ => .isFalse Except.noConfusion
  | .error x, .error y =>
      if h : x = y then .isTrue (by rw [h])
      else .isFalse (fun hc => h (Except.error.inj hc))

/-- Hash-map lookup in the registrations. -/
def Tournament.reg_lookup (t : Tournament) (pid : Nat) :
    Option PlayerRegistration :=
  (t.registrations.find? (fun e => e.1 = pid)).map (fun e => e.2)

/-- `Tournament::active_player_count`: registrations that are not
busted. -/
def Tournament.active_player_count (t : Tournament) : Nat :=
  (t.registrations.filter (fun e => ¬ e.2.is_busted)).length

/-- `Tournament::register_player`; the updated tournament is returned
together with the error slot (`none` = `Ok(())`). -/
def Tournament.register_player (t : Tournament) (pid : Nat) :
    Tournament × Option TournamentError :=
  if t.status ≠ TournamentStatus.Registering then
    (t, some (.InvalidStatus TournamentStatus.Registering t.status))
  else if t.max_players ≤ t.registrations.length then
    (t, some (.TournamentFull t.id))
  else if (t.reg_lookup pid).isSome then
    (t, some (.AlreadyRegistered pid t.id))
  else
    ({ t with registrations :=
        t.registrations ++ [(pid, ⟨pid, t.starting_stack, false, none, none, none⟩)] },
     none)

/-- `Tournament::check_and_finish_if_needed`. -/
def Tournament.check_and_finish_if_needed (t : Tournament) : Tournament :=
  if t.status = TournamentStatus.Finished then t
  else
    let active_ids := (t.registrations.filter (fun e => ¬ e.2.is_busted)).map
      (fun e => e.1)
    if active_ids.length = 0 then
      { t with status := TournamentStatus.Finished, winner_id := none }
    else if active_ids.length = 1 then
      let winner := (active_ids.insertionSort (fun a b => a ≤ b)).getD 0 0
      { t with
        status := TournamentStatus.Finished,
        winner_id := some winner,
        registrations := t.registrations.map (fun e =>
          if e.1 = winner then
            (e.1, if e.2.finishing_place = none
                  then { e.2 with finishing_place := some 1 } else e.2)
          else e) }
    else t

/-- The part of `Tournament::mark_player_busted` after the
`total_entries` snapshot: look the player up, refuse missing or
already-busted registrations, else bust them, assign the finishing place
(`saturating_sub` is `Nat` subtraction) and run the finish check. -/
def Tournament.bust_after_snapshot (t1 : Tournament) (pid : Nat) :
    Tournament × Except TournamentError Nat :=
  match t1.reg_lookup pid with
  | none => (t1, .error (.NotRegistered pid t1.id))
  | some reg =>
    if reg.is_busted then (t1, .error (.AlreadyBusted pid t1.id))
    else
      let finishing_place := t1.total_entries - t1.finished_count
      let reg' := { reg with
        is_busted := true,
        finishing_place := some finishing_place,
        table_id := none,
        seat_index := none }
      let t2 := { t1 with
        registrations := t1.registrations.map
          (fun (e : Nat × PlayerRegistration) =>
            if e.1 = pid then (pid, reg') else e),
        finished_count := t1.finished_count + 1 }
      (t2.check_and_finish_if_needed, .ok finishing_place)

/-- `Tournament::mark_player_busted`. The `total_entries` snapshot happens
before the registration lookup, exactly as in the source, so it survives
a `NotRegistered`/`AlreadyBusted` error. -/
def Tournament.mark_player_busted (t : Tournament) (pid : Nat) :
    Tournament × Except TournamentError Nat :=
  if t.status ≠ TournamentStatus.Running then
    (t, .error (.InvalidStatus TournamentStatus.Running t.status))
  else if t.active_player_count ≤ 1 then
    (t, .error (.CannotBustLastPlayer t.id))
  else
    Tournament.bust_after_snapshot
      (if t.total_entries = 0
       then { t with total_entries := t.active_player_count } else t) pid

/-! ## Seat positions (`src/engine/positions.rs`) -/

/-- The `for _ in 0..max` search loop of `next_occupied_seat`; the fuel is
the number of remaining iterations. `seats.getD idx none` is
`idx < seats.len() && seats[idx].is_some()` in one step. -/
def next_occupied_loop (seats : List (Option PlayerAtTable)) (max : Nat) :
    Nat → Nat → Option Nat
  | 0, _ => none
  | fuel + 1, idx =>
    if (seats.getD idx none).isSome then some idx
    else next_occupied_loop seats max fuel ((idx + 1) % max)

/-- `next_occupied_seat` from `positions.rs`. -/
def next_occupied_seat (t : Table) (start : Nat) (include_start : Bool) :
    Option Nat :=
  if t.seats.isEmpty then none
  else
    let max := t.max_seats
    let idx := if include_start then start else (start + 1) % max
    next_occupied_loop t.seats max max idx

/-- The collection loop of `collect_occupied_seats_from`. -/
def collect_loop (seats : List (Option PlayerAtTable)) (max : Nat) :
    Nat → Nat → List Nat
  | 0, _ => []
  | fuel + 1, idx =>
    (if (seats.getD idx none).isSome then [idx] else [])
      ++ collect_loop seats max fuel ((idx + 1) % max)

/-- `collect_occupied_seats_from` from `positions.rs`: all occupied seats
in clockwise order starting at `start`. -/
def collect_occupied_seats_from (t : Table) (start : Nat) : List Nat :=
  let max := t.max_seats
  if max = 0 then []
  else collect_loop t.seats max max start

/-- `next_dealer` from `positions.rs`. -/
def next_dealer (t : Table) : Option Nat :=
  match t.dealer_button with
  | some button => next_occupied_seat t button false
  | none => next_occupied_seat t 0 true

/-! ## Hand history and engine state (`src/engine/hand_history.rs`,
`game_loop.rs`) -/

/-- `HandEventKind`; an event's `index` is its position in the history
list. -/
inductive HandEventKind
  | HandStarted (table_id : Nat) (hand_id : Nat)
  | BlindsPosted (dealer : Nat) (small_blind : Option (Nat × Nat))
      (big_blind : Option (Nat × Nat)) (ante : List (Nat × Nat))
  | HoleCardsDealt (seat : Nat) (cards : List Card)
  | BoardDealt (street : Street) (cards : List Card)
  | PlayerActed (player_id : Nat) (seat : Nat) (action : PlayerActionKind)
      (new_stack : Nat) (pot_after : Nat)
  | StreetChanged (street : Street)
  | ShowdownReveal (seat : Nat) (player_id : Nat) (hole_cards : List Card)
      (rank_value : Nat)
  | PotAwarded (seat : Nat) (player_id : Nat) (amount : Nat)
  | HandFinished (hand_id : Nat) (table_id : Nat)
deriving DecidableEq, Repr

/-- `HandEngine` from `game_loop.rs`: `pot.total` is inlined as
`pot_total`, the deck is the list of cards still to be drawn (top
first), the contributions hash map is an association list, the history
is the list of event kinds in order. -/
structure HandEngine where
  table_id : Nat
  hand_id : Nat
  deck : List Card
  betting : BettingState
  pot_total : Nat
  side_pots : List SidePot
  contributions : List (Nat × Nat)
  current_actor : Option Nat
  history : List HandEventKind
deriving DecidableEq, Repr

/-- `Deck::draw_one`: take the top card. -/
def draw_one (deck : List Card) : Option Card × List Card :=
  match deck with
  | [] => (none, [])
  | c :: rest => (some c, rest)

/-- `HandHistory::push`. -/
def HandEngine.push_event (e : HandEngine) (k : HandEventKind) : HandEngine :=
  { e with history := e.history ++ [k] }

/-- `take_from_stack`: remove at most `amount` chips, returning the
updated player and what was actually taken. -/
def take_from_stack (player : PlayerAtTable) (amount : Nat) :
    PlayerAtTable × Nat :=
  let real := if player.stack < amount then player.stack else amount
  ({ player with stack := player.stack - real }, real)

/-- `add_contribution`: credit `amount` to the pot and to the seat's
total contribution (hash-map `entry().or_insert() +=` on the association
list). -/
def add_contribution (e : HandEngine) (seat : Nat) (amount : Nat) : HandEngine :=
  if amount = 0 then e
  else
    { e with
      pot_total := e.pot_total + amount,
      contributions :=
        if (e.contributions.find? (fun c => c.1 = seat)).isSome then
          e.contributions.map (fun c =>
            if c.1 = seat then (c.1, c.2 + amount) else c)
        else e.contributions ++ [(seat, amount)] }

/-- Update one seat of the table. -/
def Table.set_seat (t : Table) (seat : Nat) (p : PlayerAtTable) : Table :=
  { t with seats := t.seats.set seat p }

/-! ## Starting a hand (`game_loop.rs::start_hand` and helpers) -/

/-- The ante loop of `post_blinds_and_antes` for `AnteType::Classic`:
every occupied seat in `occupied` pays `min(ante, stack)`. Returns the
updated table, engine and the ante event list. -/
def post_antes_classic (ante : Nat) :
    List Nat → Table → HandEngine → List (Nat × Nat) →
      Table × HandEngine × List (Nat × Nat)
  | [], t, e, evts => (t, e, evts)
  | seat :: rest, t, e, evts =>
    match t.seats.getD seat none with
    | some p =>
      let res := take_from_stack p ante
      post_antes_classic ante rest (t.set_seat seat res.1)
        (add_contribution e seat res.2) (evts ++ [(seat, res.2)])
    | none => post_antes_classic ante rest t e evts

/-- `post_blinds_and_antes` from `game_loop.rs`: compute SB/BB seats from
the occupied order starting at the dealer, post antes and blinds, record
the `BlindsPosted` event, and build the preflop `to_act` queue starting
after the BB. -/
def post_blinds_and_antes (t : Table) (e : HandEngine) (dealer_seat : Nat) :
    Table × HandEngine :=
  let stakes := t.stakes
  let occupied := collect_occupied_seats_from t dealer_seat
  if occupied.length < 2 then (t, e)
  else
    let sb_seat := occupied.getD (1 % occupied.length) 0
    let bb_seat := occupied.getD (2 % occupied.length) 0
    -- Antes.
    let step1 :=
      match stakes.ante_type with
      | AnteType.None => (t, e, ([] : List (Nat × Nat)))
      | AnteType.Classic => post_antes_classic stakes.ante occupied t e []
      | AnteType.BigBlind =>
        match t.seats.getD bb_seat none with
        | some p =>
          let res := take_from_stack p stakes.ante
          (t.set_seat bb_seat res.1, add_contribution e bb_seat res.2,
            [(bb_seat, res.2)])
        | none => (t, e, [])
    let t1 := step1.1
    let e1 := step1.2.1
    let ante_events := step1.2.2
    -- Small blind.
    let step2 :=
      match t1.seats.getD sb_seat none with
      | some p =>
        let res := take_from_stack p stakes.small_blind
        (t1.set_seat sb_seat { res.1 with current_bet := res.1.current_bet + res.2 },
          add_contribution e1 sb_seat res.2,
          some (sb_seat, res.2))
      | none => (t1, e1, none)
    let t2 := step2.1
    let e2 := step2.2.1
    let sb_evt := step2.2.2
    -- Big blind.
    let step3 :=
      match t2.seats.getD bb_seat none with
      | some p =>
        let res := take_from_stack p stakes.big_blind
        (t2.set_seat bb_seat { res.1 with current_bet := res.1.current_bet + res.2 },
          add_contribution e2 bb_seat res.2,
          some (bb_seat, res.2))
      | none => (t2, e2, none)
    let t3 := step3.1
    let e3 := step3.2.1
    let bb_evt := step3.2.2
    let e4 := { e3 with betting :=
      { e3.betting with
        current_bet := stakes.big_blind,
        min_raise := stakes.big_blind,
        last_aggressor := some bb_seat } }
    let e5 := e4.push_event
      (.BlindsPosted dealer_seat sb_evt bb_evt ante_events)
    -- Preflop acting order: first Active seat after the BB.
    let start_idx :=
      match occupied.indexOf? bb_seat with
      | some idx => (idx + 1) % occupied.length
      | none => 0
    let rotated := (List.range occupied.length).map
      (fun i => occupied.getD ((start_idx + i) % occupied.length) 0)
    let to_act := rotated.filter (fun seat =>
      match t3.seats.getD seat none with
      | some p => p.status = PlayerStatus.Active
      | none => false)
    let e6 := { e5 with
      betting := { e5.betting with to_act := to_act },
      current_actor := to_act.head? }
    (t3, e6)

/-- The two dealing passes of `deal_hole_cards`: one card per occupied
seat, in `order`, per pass. -/
def deal_pass :
    List Nat → Table → HandEngine → Table × HandEngine
  | [], t, e => (t, e)
  | seat :: rest, t, e =>
    match t.seats.getD seat none with
    | some p =>
      match draw_one e.deck with
      | (some card, deck') =>
        deal_pass rest
          (t.set_seat seat { p with hole_cards := p.hole_cards ++ [card] })
          (({ e with deck := deck' }).push_event
            (.HoleCardsDealt seat [card]))
      | (none, _) => deal_pass rest t e
    | none => deal_pass rest t e

/-- `deal_hole_cards`: two passes starting at the dealer. The Rust code
reads `dealer_button` with `expect`; `start_hand` has always set it. -/
def deal_hole_cards (t : Table) (e : HandEngine) : Table × HandEngine :=
  let dealer := t.dealer_button.getD 0
  let order := collect_occupied_seats_from t dealer
  let pass1 := deal_pass order t e
  deal_pass order pass1.1 pass1.2

/-- `start_hand` from `game_loop.rs`. The supplied RNG and
`Deck::standard_52` are modelled by passing the already-shuffled deck
in; everything the claims quantify over is the table. The two error
returns precede every mutation. -/
def start_hand (t : Table) (shuffled_deck : List Card) (new_hand_id : Nat) :
    Except EngineError (Table × HandEngine) :=
  if t.hand_in_progress then .error .HandAlreadyInProgress
  else if t.seated_count < 2 then .error .NotEnoughPlayers
  else
    let t1 := { t with
      board := [],
      total_pot := 0,
      current_hand_id := some new_hand_id,
      street := Street.Preflop,
      hand_in_progress := true,
      seats := t.seats.map (fun s =>
        match s with
        | some p =>
          if p.status ≠ PlayerStatus.Busted ∧ p.status ≠ PlayerStatus.SittingOut
          then some { p with status := PlayerStatus.Active, current_bet := 0,
                             hole_cards := [] }
          else some p
        | none => none) }
    match next_dealer t1 with
    | none => .error .NotEnoughPlayers
    | some dealer_seat =>
      let t2 := { t1 with dealer_button := some dealer_seat }
      let engine0 : HandEngine :=
        { table_id := t2.id,
          hand_id := new_hand_id,
          deck := shuffled_deck,
          betting := BettingState.new Street.Preflop 0 t2.stakes.big_blind [],
          pot_total := 0,
          side_pots := [],
          contributions := [],
          current_actor := none,
          history := [] }
      let engine1 := engine0.push_event (.HandStarted t2.id new_hand_id)
      let step1 := post_blinds_and_antes t2 engine1 dealer_seat
      let step2 := deal_hole_cards step1.1 step1.2
      .ok step2

/-! ## Finishing a hand (`game_loop.rs::finish_hand_*`) -/

/-- `update_busted_statuses_after_hand`. -/
def update_busted_statuses_after_hand (t : Table) : Table :=
  { t with seats := t.seats.map (fun s =>
      match s with
      | some p =>
        if p.stack = 0 ∧ p.status ≠ PlayerStatus.Busted
            ∧ p.status ≠ PlayerStatus.SittingOut
        then some { p with status := PlayerStatus.Busted }
        else some p
      | none => none) }

/-- `count_active_players`: seats in `Active` or `AllIn`. -/
def count_active_players (t : Table) : Nat :=
  (t.seats.filter (fun s =>
    match s with
    | some p => p.status = PlayerStatus.Active ∨ p.status = PlayerStatus.AllIn
    | none => false)).length

/-- The winner search of `finish_hand_without_showdown`: the first seat
in `Active`/`AllIn` status. -/
def find_single_winner (t : Table) : Option Nat :=
  (List.range t.seats.length).find? (fun idx =>
    match t.seats.getD idx none with
    | some p => p.status = PlayerStatus.Active ∨ p.status = PlayerStatus.AllIn
    | none => false)

/-- `finish_hand_without_showdown`: award the whole pot to the only
remaining seat. The Rust code `expect`s a winner; when none exists (a
state `apply_action` never reaches, being guarded by
`count_active_players == 1`) the model awards nothing. The `HandSummary`
return value is pure data derived from the final state and is not
modelled. -/
def finish_hand_without_showdown (t : Table) (e : HandEngine) :
    Table × HandEngine :=
  let t1 := { t with street := Street.Showdown }
  let total_pot := e.pot_total
  let step :=
    match find_single_winner t1 with
    | some winner_seat =>
      match t1.seats.getD winner_seat none with
      | some winner =>
        ((t1.set_seat winner_seat { winner with stack := winner.stack + total_pot }),
          e.push_event (.PotAwarded winner_seat winner.player_id total_pot))
      | none => (t1, e)
    | none => (t1, e)
  let t2 := step.1
  let e2 := (step.2).push_event (.HandFinished e.hand_id e.table_id)
  (({ update_busted_statuses_after_hand t2 with total_pot := 0 }), e2)

/-- The per-pot winner scan of `finish_hand_with_showdown`: walk the
eligible seats, skip empty seats and `Folded`/`Busted` players, evaluate
everyone else (pushing `ShowdownReveal`), and keep the seats holding the
maximal rank. The rank is `evaluate_best_hand` (whose panic on fewer
than five cards is out of scope: the model returns 0 there). -/
def showdown_scan (t : Table) (board : List Card) :
    List Nat → Option Nat → List Nat → HandEngine →
      Option Nat × List Nat × HandEngine
  | [], best, winners, e => (best, winners, e)
  | seat :: rest, best, winners, e =>
    match t.seats.getD seat none with
    | some p =>
      if p.status = PlayerStatus.Folded ∨ p.status = PlayerStatus.Busted then
        showdown_scan t board rest best winners e
      else
        let rank := (evaluate_best_hand p.hole_cards board).getD 0
        let e' := e.push_event
          (.ShowdownReveal seat p.player_id p.hole_cards rank)
        match best with
        | none => showdown_scan t board rest (some rank) [seat] e'
        | some br =>
          if br < rank then showdown_scan t board rest (some rank) [seat] e'
          else if rank = br then
            showdown_scan t board rest (some br) (winners ++ [seat]) e'
          else showdown_scan t board rest (some br) winners e'
    | none => showdown_scan t board rest best winners e

/-- The award loop of `finish_hand_with_showdown`: winners receive
`share` each, the first `remainder` of them one extra chip. -/
def award_winners :
    List Nat → Nat → Nat → Table → HandEngine → Table × HandEngine
  | [], _, _, t, e => (t, e)
  | seat :: rest, share, remainder, t, e =>
    match t.seats.getD seat none with
    | some p =>
      let prize := if 0 < remainder then share + 1 else share
      let remainder' := remainder - 1
      award_winners rest share remainder'
        (t.set_seat seat { p with stack := p.stack + prize })
        (e.push_event (.PotAwarded seat p.player_id prize))
    | none => award_winners rest share remainder t e

/-- One side pot of the `finish_hand_with_showdown` loop: zero pots are
skipped, pots whose eligible seats are all folded or busted are skipped
(`winners.is_empty()`), otherwise the pot is divided. -/
def distribute_pot (board : List Card) (sp : SidePot) (t : Table)
    (e : HandEngine) : Table × HandEngine :=
  if sp.amount = 0 then (t, e)
  else
    let scan := showdown_scan t board sp.eligible_seats none [] e
    let winners := scan.2.1
    let e1 := scan.2.2
    if winners.isEmpty then (t, e1)
    else
      let share := sp.amount / winners.length
      let remainder := sp.amount % winners.length
      award_winners winners share remainder t e1

/-- The pot loop of `finish_hand_with_showdown`. -/
def distribute_pots (board : List Card) :
    List SidePot → Table → HandEngine → Table × HandEngine
  | [], t, e => (t, e)
  | sp :: rest, t, e =>
    let step := distribute_pot board sp t e
    distribute_pots board rest step.1 step.2

/-- `finish_hand_with_showdown`: compute the side pots from the
contributions, store them on the engine, pay out every pot, then close
the hand (the `HandSummary`/`results_map` return value is pure data and
is not modelled). -/
def finish_hand_with_showdown (t : Table) (e : HandEngine) :
    Table × HandEngine :=
  let t1 := { t with street := Street.Showdown }
  let side_pots := compute_side_pots e.contributions
  let e1 := { e with side_pots := side_pots }
  let step := distribute_pots t1.board side_pots t1 e1
  let t2 := step.1
  let e2 := (step.2).push_event (.HandFinished e.hand_id e.table_id)
  (({ update_busted_statuses_after_hand t2 with total_pot := 0 }), e2)

/-! ## Street advance and action application (`game_loop.rs`) -/

/-- `deal_board_cards`: draw `count` cards onto the board, push the
`BoardDealt` and `StreetChanged` events and set the street. -/
def deal_board_cards (t : Table) (e : HandEngine) (count : Nat)
    (street : Street) : Table × HandEngine :=
  let drawn := e.deck.take count
  let t1 := { t with board := t.board ++ drawn }
  let e1 := { e with deck := e.deck.drop count }
  let e2 := (e1.push_event (.BoardDealt street t1.board)).push_event
    (.StreetChanged street)
  ({ t1 with street := street }, e2)

/-- `reset_bets_for_new_street`: clear the street bets and rebuild
`to_act` from the first Active seat clockwise from the button. -/
def reset_bets_for_new_street (t : Table) (e : HandEngine) (street : Street) :
    Table × HandEngine :=
  let t1 := { t with seats := t.seats.map (fun s =>
      match s with
      | some p => some { p with current_bet := 0 }
      | none => none) }
  let occupied := collect_occupied_seats_from t1 (t1.dealer_button.getD 0)
  let firstActive := occupied.find? (fun seat =>
    match t1.seats.getD seat none with
    | some p => p.status = PlayerStatus.Active
    | none => false)
  match firstActive with
  | some first =>
    let start_idx := (occupied.indexOf? first).getD 0
    let rotated := (List.range occupied.length).map
      (fun i => occupied.getD ((start_idx + i) % occupied.length) 0)
    let to_act := rotated.filter (fun seat =>
      match t1.seats.getD seat none with
      | some p => p.status = PlayerStatus.Active
      | none => false)
    (t1, { e with
      betting := BettingState.new street 0 t1.stakes.big_blind to_act,
      current_actor := to_act.head? })
  | none => (t1, { e with current_actor := none })

/-- `advance_if_needed` from `game_loop.rs`; the error slot is the
`EngineError` of the `Showdown` arm. -/
def advance_if_needed (t : Table) (e : HandEngine) :
    Table × HandEngine × Option EngineError :=
  match t.street with
  | Street.Preflop =>
    let s1 := deal_board_cards t e 3 Street.Flop
    let s2 := reset_bets_for_new_street s1.1 s1.2 Street.Flop
    (s2.1, s2.2, none)
  | Street.Flop =>
    let s1 := deal_board_cards t e 1 Street.Turn
    let s2 := reset_bets_for_new_street s1.1 s1.2 Street.Turn
    (s2.1, s2.2, none)
  | Street.Turn =>
    let s1 := deal_board_cards t e 1 Street.River
    let s2 := reset_bets_for_new_street s1.1 s1.2 Street.River
    (s2.1, s2.2, none)
  | Street.River =>
    let s := finish_hand_with_showdown t e
    ({ s.1 with hand_in_progress := false }, s.2, none)
  | Street.Showdown => (t, e, some .Internal)

/-- `collect_betting_order_after_raise`: Active seats clockwise starting
after the raiser. -/
def collect_betting_order_after_raise (t : Table) (raiser_seat : Nat) :
    List Nat :=
  let order := collect_occupied_seats_from t raiser_seat
  if order.length ≤ 1 then []
  else
    ((List.range (order.length - 1)).map
      (fun i => order.getD ((1 + i) % order.length) 0)).filter
      (fun seat =>
        match t.seats.getD seat none with
        | some p => p.status = PlayerStatus.Active
        | none => false)

/-- The shared tail of every action arm of `apply_action`: remove the
actor from `to_act`, end the hand at once if a single live player
remains, advance the street when the round is complete, else pass the
turn on. -/
def apply_action_tail (t : Table) (e : HandEngine) (seat : Nat) :
    Table × HandEngine × Option EngineError :=
  let e1 := { e with betting := e.betting.mark_acted seat }
  if count_active_players t = 1 then
    let s := finish_hand_without_showdown t e1
    ({ s.1 with hand_in_progress := false }, s.2, none)
  else if e1.betting.is_round_complete then
    advance_if_needed t e1
  else
    (t, { e1 with current_actor := e1.betting.to_act.head? }, none)

/-- The effect of one validated action on the actor's seat and the
engine, mirroring the `match action.kind` arms of `apply_action`
(`p` is the occupied seat content, already checked). -/
def apply_action_effect (t : Table) (e : HandEngine) (a : PlayerAction)
    (p : PlayerAtTable) : Table × HandEngine :=
  let seat_idx := a.seat
  let to_call :=
    if p.current_bet < e.betting.current_bet
    then e.betting.current_bet - p.current_bet else 0
  match a.kind with
  | PlayerActionKind.Fold =>
    let p' := { p with status := PlayerStatus.Folded }
    let t' := t.set_seat seat_idx p'
    (t', e.push_event (.PlayerActed p'.player_id a.seat a.kind p'.stack e.pot_total))
  | PlayerActionKind.Check =>
    (t, e.push_event (.PlayerActed p.player_id a.seat a.kind p.stack e.pot_total))
  | PlayerActionKind.Call =>
    if p.stack ≤ to_call then
      let allin := p.stack
      let diff := p.current_bet + allin
      let added := diff - p.current_bet
      let p' := { p with stack := 0, status := PlayerStatus.AllIn,
                         current_bet := diff }
      let t' := t.set_seat seat_idx p'
      let e' := add_contribution e a.seat added
      (t', e'.push_event (.PlayerActed p'.player_id a.seat a.kind p'.stack e'.pot_total))
    else
      let p' := { p with stack := p.stack - to_call,
                         current_bet := p.current_bet + to_call }
      let t' := t.set_seat seat_idx p'
      let e' := add_contribution e a.seat to_call
      (t', e'.push_event (.PlayerActed p'.player_id a.seat a.kind p'.stack e'.pot_total))
  | PlayerActionKind.Bet amount =>
    let diff := if p.stack ≤ amount then p.stack else amount
    let p' := { p with
      stack := if p.stack ≤ amount then 0 else p.stack - amount,
      status := if p.stack ≤ amount then PlayerStatus.AllIn else p.status,
      current_bet := p.current_bet + diff }
    let t' := t.set_seat seat_idx p'
    let e' := add_contribution e a.seat diff
    let e2 := { e' with betting := (e'.betting.on_raise a.seat p'.current_bet
        amount (collect_betting_order_after_raise t' a.seat)) }
    (t', e2.push_event (.PlayerActed p'.player_id a.seat a.kind p'.stack e2.pot_total))
  | PlayerActionKind.Raise total_bet =>
    let current_bet_before := e.betting.current_bet
    let diff_to_target := u64_sub total_bet p.current_bet
    let real_diff := if p.stack ≤ diff_to_target then p.stack else diff_to_target
    let p' := { p with
      stack := if p.stack ≤ diff_to_target then 0 else p.stack - diff_to_target,
      status := if p.stack ≤ diff_to_target then PlayerStatus.AllIn else p.status,
      current_bet := p.current_bet + real_diff }
    let t' := t.set_seat seat_idx p'
    let e' := add_contribution e a.seat real_diff
    let raise_size := u64_sub p'.current_bet current_bet_before
    let e2 := { e' with betting := (e'.betting.on_raise a.seat p'.current_bet
        raise_size (collect_betting_order_after_raise t' a.seat)) }
    (t', e2.push_event (.PlayerActed p'.player_id a.seat a.kind p'.stack e2.pot_total))
  | PlayerActionKind.AllIn =>
    let current_bet_before := e.betting.current_bet
    let allin := p.stack
    let new_bet := p.current_bet + allin
    let diff := new_bet - p.current_bet
    let p' := { p with stack := 0, status := PlayerStatus.AllIn,
                       current_bet := new_bet }
    let t' := t.set_seat seat_idx p'
    let e' := add_contribution e a.seat diff
    let e2 :=
      if current_bet_before < new_bet then
        { e' with betting := (e'.betting.on_raise a.seat new_bet
            (new_bet - current_bet_before)
            (collect_betting_order_after_raise t' a.seat)) }
      else
        { e' with betting := e'.betting.mark_acted a.seat }
    (t', e2.push_event (.PlayerActed p'.player_id a.seat a.kind p'.stack e2.pot_total))

/-- `apply_action` from `game_loop.rs`, threading the state through so
that any mutation made before an error remains visible, exactly as with
`&mut` references; the `HandStatus`/`HandSummary` result is pure data
and is not modelled. All checks precede every mutation; the only
post-mutation error source is `advance_if_needed` on a `Showdown`
street. -/
def apply_action (t : Table) (e : HandEngine) (a : PlayerAction) :
    Table × HandEngine × Option EngineError :=
  if ¬ t.hand_in_progress then (t, e, some .NoActiveHand)
  else if t.seats.length ≤ a.seat then (t, e, some (.InvalidSeat a.seat))
  else
    match t.seats.getD a.seat none with
    | none => (t, e, some .EmptySeat)
    | some p =>
      if p.player_id ≠ a.player_id then (t, e, some (.PlayerNotAtTable a.player_id))
      else if e.current_actor ≠ some a.seat then
        (t, e, some (.NotPlayersTurn a.player_id))
      else
        match validate_action p a.kind e.betting with
        | some err => (t, e, some err)
        | none =>
          let s := apply_action_effect t e a p
          apply_action_tail s.1 s.2 a.seat

/-- Total of the `PotAwarded` amounts in a history (the chips credited to
winners' stacks). -/
def pot_awarded_total (hist : List HandEventKind) : Nat :=
  (hist.map (fun k =>
    match k with
    | HandEventKind.PotAwarded _ _ amount => amount
    | _ => 0)).sum

/-! ### Concrete fixtures for the counterexamples -/

/-- A heads-up table: seats 0 and 1 hold players 1 and 2 with 10,000-chip
stacks, blinds 50/100, no ante (the setup of the repository's own
heads-up test). -/
def heads_up_table : Table :=
  ⟨1, ⟨50, 100, AnteType.None, 0⟩,
    [some ⟨1, 10000, 0, PlayerStatus.Active, []⟩,
     some ⟨2, 10000, 0, PlayerStatus.Active, []⟩],
    [], none, none, Street.Preflop, false, 0⟩

/-- An arbitrary shuffled-deck prefix for the heads-up hand. -/
def heads_up_deck : List Card :=
  [⟨2, Suit.Clubs⟩, ⟨3, Suit.Clubs⟩, ⟨4, Suit.Clubs⟩, ⟨5, Suit.Clubs⟩]

/-- A river state for C2: seat 0 folded after contributing 100, seats 1
and 2 all-in for 100 each. -/
def c2_table : Table :=
  ⟨1, ⟨50, 100, AnteType.None, 0⟩,
    [some ⟨1, 0, 0, PlayerStatus.Folded, [⟨14, Suit.Clubs⟩, ⟨13, Suit.Clubs⟩]⟩,
     some ⟨2, 0, 0, PlayerStatus.AllIn, [⟨2, Suit.Diamonds⟩, ⟨7, Suit.Hearts⟩]⟩,
     some ⟨3, 0, 0, PlayerStatus.AllIn, [⟨3, Suit.Diamonds⟩, ⟨8, Suit.Hearts⟩]⟩],
    [⟨9, Suit.Spades⟩, ⟨10, Suit.Diamonds⟩, ⟨4, Suit.Hearts⟩, ⟨5, Suit.Spades⟩,
      ⟨12, Suit.Diamonds⟩],
    some 0, some 1, Street.River, true, 300⟩

/-- The matching engine state for `c2_table`. -/
def c2_engine : HandEngine :=
  ⟨1, 1, [], ⟨0, 100, none, Street.River, []⟩, 300, [],
    [(0, 100), (1, 100), (2, 100)], none, []⟩

/-- A river state for C3: seats 0 and 1 all-in for 100 each, seat 2
folded after contributing 400 (betting 400 preflop and folding to the
all-ins on a later street), so the top side-pot layer of 300 chips has
the folded seat 2 as its only eligible seat. -/
def c3_table : Table :=
  ⟨1, ⟨50, 100, AnteType.None, 0⟩,
    [some ⟨1, 0, 0, PlayerStatus.AllIn, [⟨2, Suit.Diamonds⟩, ⟨7, Suit.Hearts⟩]⟩,
     some ⟨2, 0, 0, PlayerStatus.AllIn, [⟨3, Suit.Diamonds⟩, ⟨8, Suit.Hearts⟩]⟩,
     some ⟨3, 5000, 0, PlayerStatus.Folded, [⟨14, Suit.Clubs⟩, ⟨13, Suit.Clubs⟩]⟩],
    [⟨9, Suit.Spades⟩, ⟨10, Suit.Diamonds⟩, ⟨4, Suit.Hearts⟩, ⟨5, Suit.Spades⟩,
      ⟨12, Suit.Diamonds⟩],
    some 0, some 1, Street.River, true, 600⟩

/-- The matching engine state for `c3_table`: 600 chips committed. -/
def c3_engine : HandEngine :=
  ⟨1, 1, [], ⟨0, 100, none, Street.River, []⟩, 600, [],
    [(0, 100), (1, 100), (2, 400)], none, []⟩

/-- A tournament in `Running` status with two active players whose
`total_entries` snapshot has not been taken yet. -/
def c4_tournament : Tournament :=
  ⟨5, 1, 5000, 10, false, 1, TournamentStatus.Running,
    [(1, ⟨1, 100, false, none, none, none⟩),
     (2, ⟨2, 100, false, none, none, none⟩)],
    1, 0, 0, none⟩

/-- A corrupt-but-typeable table for the second C4 divergence: a hand in
progress whose street is already `Showdown`. -/
def c4_table : Table :=
  ⟨1, ⟨50, 100, AnteType.None, 0⟩,
    [some ⟨1, 100, 0, PlayerStatus.Active, []⟩,
     some ⟨2, 100, 0, PlayerStatus.Active, []⟩],
    [], some 0, some 1, Street.Showdown, true, 0⟩

/-- The engine paired with `c4_table`: seat 0 to act, nothing bet. -/
def c4_engine : HandEngine :=
  ⟨1, 1, [], ⟨0, 100, none, Street.Showdown, [0]⟩, 0, [], [], some 0, []⟩

/-- A registering tournament that allows re-entry (2 entries per player)
in which player 1 is already registered and busted. -/
def c7_tournament : Tournament :=
  ⟨7, 1, 5000, 10, true, 2, TournamentStatus.Registering,
    [(1, ⟨1, 0, true, none, none, some 9⟩)],
    1, 9, 8, none⟩

/-! ## Theorems -/

/-- Summing the second components is unaffected by dropping zero entries. -/
theorem sum_filter_nonzero (l : List (Nat × Nat)) :
    ((l.filter (fun e => e.2 ≠ 0)).map (fun e => e.2)).sum
      = (l.map (fun e => e.2)).sum := by
  induction l with
  | nil => rfl
  | cons hd tl ih =>
    simp only [ne_eq, decide_not] at ih ⊢
    by_cases h : hd.2 = 0
    · simp [List.filter_cons, h, ih]
    · simp [List.filter_cons, h, ih]

/-- A lower bound on a contribution-list sum: if every entry contributes at
least `a`, the sum is at least `a` times the length. -/
theorem mul_length_le_sum (a : Nat) :
    ∀ (l : List (Nat × Nat)), (∀ e ∈ l, a ≤ e.2) →
      a * l.length ≤ (l.map (fun e => e.2)).sum := by
  intro l
  induction l with
  | nil => intro _; simp
  | cons hd tl ih =>
    intro h
    simp only [List.map_cons, List.sum_cons, List.length_cons]
    have h1 := h hd (List.mem_cons_self _ _)
    have h2 := ih (fun e he => h e (List.mem_cons_of_mem _ he))
    calc a * (tl.length + 1) = a + a * tl.length := by ring
      _ ≤ hd.2 + (tl.map (fun e => e.2)).sum := Nat.add_le_add h1 h2

/-- Layer-cake identity for the side-pot loop: processing the suffix `r`
of the sorted entry list with threshold `prev` yields pots totalling the
suffix contributions above `prev`, provided that total fits in a u64 (so
no layer's `diff * count` product wraps). -/
theorem side_pots_loop_sum (entries : List (Nat × Nat)) :
    ∀ (r t : List (Nat × Nat)) (prev : Nat),
      entries = t ++ r →
      (∀ e ∈ t, e.2 ≤ prev) →
      (∀ e ∈ r, prev ≤ e.2) →
      List.Sorted byAmount r →
      (r.map (fun e => e.2)).sum < 2 ^ 64 →
      ((side_pots_loop entries r prev).map SidePot.amount).sum + prev * r.length
        = (r.map (fun e => e.2)).sum := by
  intro r
  induction r with
  | nil => intro t prev _ _ _ _ _; simp [side_pots_loop]
  | cons hd tl ih =>
    intro t prev hsplit ht hr hpair hsum
    obtain ⟨s, a⟩ := hd
    have hprevle : prev ≤ a := hr (s, a) (List.mem_cons_self _ _)
    have htl_ge : ∀ e ∈ tl, a ≤ e.2 := fun e he => (List.sorted_cons.mp hpair).1 e he
    have hsplit' : entries = (t ++ [(s, a)]) ++ tl := by
      rw [hsplit, List.append_assoc]; rfl
    have hsumtl : ((tl.map (fun e => e.2)).sum) < 2 ^ 64 := by
      simp only [List.map_cons, List.sum_cons] at hsum
      omega
    by_cases hskip : a = prev
    · have ih' := ih (t ++ [(s, a)]) prev hsplit'
        (by
          intro e he
          rcases List.mem_append.mp he with h | h
          · exact ht e h
          · simp at h; subst h; simp [hskip])
        (fun e he => Nat.le_trans hprevle (htl_ge e he))
        (List.sorted_cons.mp hpair).2
        hsumtl
      subst hskip
      have hloop : side_pots_loop entries ((s, a) :: tl) a
          = side_pots_loop entries tl a := by
        simp [side_pots_loop]
      rw [hloop]
      simp only [List.length_cons, Nat.mul_succ, List.map_cons, List.sum_cons]
      calc (List.map SidePot.amount (side_pots_loop entries tl a)).sum
            + (a * tl.length + a)
          = ((List.map SidePot.amount (side_pots_loop entries tl a)).sum
              + a * tl.length) + a := by ring
        _ = (List.map (fun e => e.2) tl).sum + a := by rw [ih']
        _ = a + (List.map (fun e => e.2) tl).sum := by ring
    · have hlt : prev < a := Nat.lt_of_le_of_ne hprevle (fun h => hskip h.symm)
      have hfilter : entries.filter (fun e => a ≤ e.2) = (s, a) :: tl := by
        rw [hsplit, List.filter_append]
        have h1 : t.filter (fun e => a ≤ e.2) = [] := by
          apply List.filter_eq_nil_iff.mpr
          intro e he
          have h3 := ht e he
          have h4 : ¬ (a ≤ e.2) :=
            fun hcon => Nat.lt_irrefl prev (Nat.lt_of_lt_of_le hlt (Nat.le_trans hcon h3))
          simpa using h4
        have h2 : ((s, a) :: tl).filter (fun e => a ≤ e.2) = (s, a) :: tl := by
          apply List.filter_eq_self.mpr
          intro e he
          rcases List.mem_cons.mp he with h | h
          · subst h; simp
          · simpa using htl_ge e h
        rw [h1, h2]; rfl
      have ih' := ih (t ++ [(s, a)]) a hsplit'
        (by
          intro e he
          rcases List.mem_append.mp he with h | h
          · exact Nat.le_trans (ht e h) (Nat.le_of_lt hlt)
          · simp at h; subst h; simp)
        htl_ge
        (List.sorted_cons.mp hpair).2
        hsumtl
      have hbig : a * (tl.length + 1)
          ≤ (((s, a) :: tl).map (fun e => e.2)).sum := by
        have := mul_length_le_sum a ((s, a) :: tl) (by
          intro e he
          rcases List.mem_cons.mp he with h | h
          · subst h; exact Nat.le_refl a
          · exact htl_ge e h)
        simpa using this
      have hmod : (a - prev) * (tl.length + 1) % 2 ^ 64
          = (a - prev) * (tl.length + 1) := by
        apply Nat.mod_eq_of_lt
        have h1 : (a - prev) * (tl.length + 1) ≤ a * (tl.length + 1) :=
          Nat.mul_le_mul_right _ (Nat.sub_le a prev)
        omega
      have hloop : side_pots_loop entries ((s, a) :: tl) prev
          = { amount := (a - prev) * (tl.length + 1) % 2 ^ 64,
              eligible_seats := ((s, a) :: tl).map (fun e => e.1) }
              :: side_pots_loop entries tl a := by
        simp only [side_pots_loop, if_neg hskip, hfilter]
        have hne : (((s, a) :: tl).map (fun e => e.1)).isEmpty = false := by simp
        simp [hne]
      rw [hloop]
      simp only [List.map_cons, List.sum_cons, List.length_cons]
      rw [hmod]
      have key : (a - prev) * (tl.length + 1) + prev * (tl.length + 1)
          = a * (tl.length + 1) := by
        rw [← Nat.add_mul, Nat.sub_add_cancel (Nat.le_of_lt hlt)]
      calc (a - prev) * (tl.length + 1)
            + (List.map SidePot.amount (side_pots_loop entries tl a)).sum
            + prev * (tl.length + 1)
          = ((a - prev) * (tl.length + 1) + prev * (tl.length + 1))
              + (List.map SidePot.amount (side_pots_loop entries tl a)).sum := by ring
        _ = a * (tl.length + 1)
              + (List.map SidePot.amount (side_pots_loop entries tl a)).sum := by rw [key]
        _ = a + ((List.map SidePot.amount (side_pots_loop entries tl a)).sum
              + a * tl.length) := by ring
        _ = a + (List.map (fun e => e.2) tl).sum := by rw [ih']

/-- C10 helper: the total of all side-pot amounts equals the total of the
contribution map, whenever that total fits in a u64 (so no layer product
wraps). -/
theorem compute_side_pots_sum (contributions : List (Nat × Nat))
    (h64 : (contributions.map (fun e => e.2)).sum < 2 ^ 64) :
    ((compute_side_pots contributions).map SidePot.amount).sum
      = (contributions.map (fun e => e.2)).sum := by
  unfold compute_side_pots
  by_cases h : (contributions.filter (fun e => e.2 ≠ 0)).isEmpty
  · have h0 := sum_filter_nonzero contributions
    rw [List.isEmpty_iff.mp h] at h0
    simp only [h, if_true, List.map_nil, List.sum_nil]
    simpa using h0
  · simp only [h, Bool.false_eq_true, if_false]
    set entries := contributions.filter (fun e => e.2 ≠ 0) with hentries
    have hperm : (entries.insertionSort byAmount).Perm entries :=
      List.perm_insertionSort byAmount entries
    have hpair : List.Sorted byAmount (entries.insertionSort byAmount) :=
      List.sorted_insertionSort byAmount entries
    have hsorted_sum : ((entries.insertionSort byAmount).map (fun e => e.2)).sum
        = (entries.map (fun e => e.2)).sum :=
      (hperm.map (fun e => e.2)).sum_eq
    have hbnd : ((entries.insertionSort byAmount).map (fun e => e.2)).sum
        < 2 ^ 64 := by
      rw [hsorted_sum, hentries, sum_filter_nonzero]
      exact h64
    have hmain := side_pots_loop_sum (entries.insertionSort byAmount)
      (entries.insertionSort byAmount) [] 0 rfl (by simp)
      (fun e _ => Nat.zero_le _) hpair hbnd
    rw [Nat.mul_comm, Nat.mul_zero, Nat.add_zero] at hmain
    rw [hmain, hsorted_sum, hentries, sum_filter_nonzero]

/-- For operands below 2^64 with subtrahend at most the minuend,
`u64_sub` is plain subtraction. -/
theorem u64_sub_of_le {a b : Nat} (hba : b ≤ a) (ha : a < 2 ^ 64) :
    u64_sub a b = a - b := by
  unfold u64_sub
  have hb : b % 2 ^ 64 = b := Nat.mod_eq_of_lt (Nat.lt_of_le_of_lt hba ha)
  rw [hb]
  have h1 : a + 2 ^ 64 - b = (a - b) + 2 ^ 64 := by omega
  rw [h1, Nat.add_mod_right]
  exact Nat.mod_eq_of_lt (by omega)

/-- C6 counterexample: an Active player with `current_bet = 500` and
`stack = 0` facing `current_bet = 100, min_raise = 100` raises to 200.
All four conditions of the claim hold (over the integers,
`stack = 0 ≥ 200 − 500`), yet `validate_action` rejects with
`NotEnoughChips` because the Rust code computes `target − current_bet` in
raw wrapping `u64` arithmetic. -/
theorem C6_counterexample :
    validate_action ⟨1, 0, 500, PlayerStatus.Active, []⟩
        (PlayerActionKind.Raise 200) ⟨100, 100, none, Street.Preflop, []⟩
      = some EngineError.NotEnoughChips
    ∧ (0 : Nat) < 100 ∧ (100 : Nat) < 200 ∧ (100 : Nat) ≤ 200 - 100
    ∧ (0 : Int) ≥ 200 - 500 := by
  refine ⟨?_, by norm_num, by norm_num, by norm_num, by norm_num⟩
  decide

/-- C6 (amended): for an Active player whose street bet does not exceed
the raise target (the situation every reachable betting state is in;
chip amounts are `u64` values), `validate_action` accepts `Raise(target)`
iff `current_bet > 0`, `target > current_bet`,
`target − current_bet ≥ min_raise` and `stack ≥ target − current_bet`
of the player; every rejection is `RaiseTooSmall`, `NotEnoughChips` or
`IllegalAction`. -/
theorem C6_validate_raise (p : PlayerAtTable) (b : BettingState) (target : Nat)
    (hstatus : p.status = PlayerStatus.Active)
    (hbound : target < 2 ^ 64)
    (hcb : p.current_bet ≤ target) :
    (validate_action p (PlayerActionKind.Raise target) b = none ↔
      (0 < b.current_bet ∧ b.current_bet < target
        ∧ b.min_raise ≤ target - b.current_bet
        ∧ target - p.current_bet ≤ p.stack))
    ∧ (∀ err, validate_action p (PlayerActionKind.Raise target) b = some err →
        err = EngineError.RaiseTooSmall ∨ err = EngineError.NotEnoughChips
          ∨ err = EngineError.IllegalAction) := by
  obtain ⟨pid, stack, pbet, pst, hc⟩ := p
  obtain ⟨cb, mr, la, st, ta⟩ := b
  simp only at hstatus hcb ⊢
  subst hstatus
  have hred : validate_action ⟨pid, stack, pbet, PlayerStatus.Active, hc⟩
      (PlayerActionKind.Raise target) ⟨cb, mr, la, st, ta⟩ =
      (if cb = 0 then some EngineError.IllegalAction
       else if target ≤ cb then some EngineError.IllegalAction
       else if u64_sub target cb < mr then some EngineError.RaiseTooSmall
       else if stack < u64_sub target pbet then some EngineError.NotEnoughChips
       else none) := by
    unfold validate_action
    rw [if_neg (by simp)]
  rw [hred]
  constructor
  · constructor
    · intro h
      split_ifs at h with h1 h2 h3 h4
      have hs1 : u64_sub target cb = target - cb :=
        u64_sub_of_le (by omega) hbound
      have hs2 : u64_sub target pbet = target - pbet :=
        u64_sub_of_le hcb hbound
      rw [hs1] at h3
      rw [hs2] at h4
      exact ⟨by omega, by omega, by omega, by omega⟩
    · rintro ⟨h1, h2, h3, h4⟩
      rw [u64_sub_of_le (Nat.le_of_lt h2) hbound, u64_sub_of_le hcb hbound]
      rw [if_neg (by omega), if_neg (by omega), if_neg (by omega), if_neg (by omega)]
  · intro err herr
    split_ifs at herr with h1 h2 h3 h4 <;>
      first
        | exact Option.noConfusion herr
        | (injection herr with he; subst he; decide)

/-- C6 witness: a raise to 300 over a 100 bet with min-raise 100 and a
1000-chip stack is accepted, by the amended theorem at that input. -/
theorem C6_validate_raise_witness :
    validate_action ⟨1, 1000, 0, PlayerStatus.Active, []⟩
        (PlayerActionKind.Raise 300) ⟨100, 100, none, Street.Preflop, []⟩
      = none :=
  ((C6_validate_raise ⟨1, 1000, 0, PlayerStatus.Active, []⟩
      ⟨100, 100, none, Street.Preflop, []⟩ 300 rfl (by norm_num)
      (by norm_num)).1).mpr (by norm_num)

/-- C8 counterexample: with the standard time rules (base 20s, bank 60s,
step 20s) and a player holding a 60-second bank, `start_turn` sets
`remaining_extra_secs` to the pre-granted 20-second packet, not to 0 as
the claim states. -/
theorem C8_counterexample :
    (TurnClock.start_turn ⟨none, 0, 0⟩ 1 ⟨20, 60, 20⟩ ⟨[(1, ⟨60⟩)]⟩).1.remaining_extra_secs
        = 20
      ∧ ((TurnClock.start_turn ⟨none, 0, 0⟩ 1 ⟨20, 60, 20⟩
            ⟨[(1, ⟨60⟩)]⟩).1.remaining_extra_secs ≠ 0) := by
  decide

/-- C8 (amended): after `start_turn(player)` the clock has
`current_player = player`, `remaining_action_secs = max base_action_secs 0`,
and `remaining_extra_secs` equal to the pre-granted time-bank packet:
`min bank_step_secs (player's remaining bank)` when both are positive and
the player has a bank entry, 0 otherwise. -/
theorem C8_start_turn (clock : TurnClock) (rules : TimeRules)
    (bank : TimeBank) (p : Nat) :
    (TurnClock.start_turn clock p rules bank).1.current_player = some p
    ∧ (TurnClock.start_turn clock p rules bank).1.remaining_action_secs
        = max rules.base_action_secs 0
    ∧ (TurnClock.start_turn clock p rules bank).1.remaining_extra_secs
        = (match bank.lookup p with
           | some pb =>
             if 0 < rules.bank_step_secs ∧ 0 < pb.remaining_secs
             then min rules.bank_step_secs pb.remaining_secs
             else 0
           | none => 0) := by
  refine ⟨rfl, rfl, ?_⟩
  unfold TurnClock.start_turn
  by_cases hstep : 0 < rules.bank_step_secs
  · have hmax : max rules.bank_step_secs 0 = rules.bank_step_secs :=
      max_eq_left (le_of_lt hstep)
    simp only [hmax, if_pos hstep]
    unfold TimeBank.grant_for_turn
    rw [if_neg (by omega)]
    cases hlook : bank.lookup p with
    | none => simp
    | some pb =>
      simp only
      unfold PlayerTimeBank.grant
      by_cases hrem : pb.remaining_secs ≤ 0
      · rw [if_pos (Or.inr hrem)]
        have hcond : ¬ (0 < rules.bank_step_secs ∧ 0 < pb.remaining_secs) := by
          intro hcon; omega
        rw [if_neg hcond]
      · rw [if_neg (by omega)]
        simp only
        rw [if_pos ⟨hstep, by omega⟩]
  · have hmax : max rules.bank_step_secs 0 = 0 :=
      max_eq_right (by omega)
    simp only [hmax, lt_irrefl, if_false]
    cases hlook : bank.lookup p with
    | none => simp
    | some pb => simp [hstep]

/-- Per-rank card counts are permutation invariant. -/
theorem count_rank_perm {l₁ l₂ : List Card} (h : l₁.Perm l₂) (r : Nat) :
    count_rank l₁ r = count_rank l₂ r :=
  (h.filter _).length_eq

/-- Suit counts are permutation invariant. -/
theorem count_suit_perm {l₁ l₂ : List Card} (h : l₁.Perm l₂) (s : Suit) :
    count_suit l₁ s = count_suit l₂ s :=
  (h.filter _).length_eq

/-- The rank mask is permutation invariant (bitwise-or is commutative and
associative). -/
theorem rank_mask_perm {l₁ l₂ : List Card} (h : l₁.Perm l₂) :
    rank_mask_of l₁ = rank_mask_of l₂ :=
  h.foldl_eq 0

/-- The flush flag is permutation invariant. -/
theorem is_flush_perm {l₁ l₂ : List Card} (h : l₁.Perm l₂) :
    is_flush l₁ = is_flush l₂ := by
  simp only [is_flush, count_suit_perm h]

/-- The rank-count list is permutation invariant (it is computed from the
counts alone). -/
theorem rc_list_perm {l₁ l₂ : List Card} (h : l₁.Perm l₂) :
    rc_list l₁ = rc_list l₂ := by
  simp only [rc_list, count_rank_perm h]

/-- The sorted rank-count list is permutation invariant. -/
theorem rc_sorted_perm {l₁ l₂ : List Card} (h : l₁.Perm l₂) :
    rc_sorted l₁ = rc_sorted l₂ := by
  unfold rc_sorted
  rw [rc_list_perm h]

/-- The descending rank list is permutation invariant: both sides are
sorted for the antisymmetric order `rankGe` and are permutations of each
other. -/
theorem ranks_desc_perm {l₁ l₂ : List Card} (h : l₁.Perm l₂) :
    ranks_desc l₁ = ranks_desc l₂ :=
  List.eq_of_perm_of_sorted
    ((List.perm_insertionSort _ _).trans
      ((h.map _).trans (List.perm_insertionSort _ _).symm))
    (List.sorted_insertionSort _ _) (List.sorted_insertionSort _ _)

/-- `evaluate_5card_hand` is a function of the card multiset. -/
theorem evaluate_5card_hand_perm {l₁ l₂ : List Card} (h : l₁.Perm l₂) :
    evaluate_5card_hand l₁ = evaluate_5card_hand l₂ := by
  unfold evaluate_5card_hand
  rw [rank_mask_perm h, is_flush_perm h, rc_sorted_perm h, ranks_desc_perm h]

/-- Mapping a permutation-invariant function over the length-`n` sublists
of permuted lists yields permuted value lists (the analogue of
`Multiset.powersetCardAux_perm` for a mapped evaluation). -/
theorem sublistsLen_map_perm :
    ∀ (n : Nat) (f : List Card → Nat),
      (∀ ⦃s₁ s₂ : List Card⦄, s₁.Perm s₂ → f s₁ = f s₂) →
      ∀ {l₁ l₂ : List Card}, l₁.Perm l₂ →
        ((l₁.sublistsLen n).map f).Perm ((l₂.sublistsLen n).map f) := by
  intro n
  induction n with
  | zero =>
    intro f _ l₁ l₂ _
    simp [List.sublistsLen_zero]
  | succ n IHn =>
    intro f hf l₁ l₂ p
    induction p with
    | nil => rfl
    | cons a p IH =>
      simp only [List.sublistsLen_succ_cons, List.map_append, List.map_map]
      exact IH.append (IHn (f ∘ List.cons a) (fun s₁ s₂ hs => hf (hs.cons a)) p)
    | swap x y l =>
      simp only [List.sublistsLen_succ_cons, List.map_append, List.map_map,
        List.append_assoc]
      apply List.Perm.append_left
      cases n with
      | zero =>
        simp [List.sublistsLen_zero, List.sublistsLen_succ_cons]
        exact List.Perm.swap _ _ _
      | succ n =>
        simp only [List.sublistsLen_succ_cons, List.map_append, List.map_map]
        rw [(List.map_congr_left (fun s _ => hf (List.Perm.swap x y s)) :
            List.map ((f ∘ List.cons y) ∘ List.cons x) (List.sublistsLen n l)
              = List.map ((f ∘ List.cons x) ∘ List.cons y) (List.sublistsLen n l)),
          ← List.append_assoc, ← List.append_assoc]
        exact List.perm_append_comm.append_right _
    | trans _ _ IH₁ IH₂ => exact IH₁.trans IH₂

/-- C9: best-hand evaluation over 5 to 7 cards is independent of the
order of the input card list. -/
theorem C9_best_hand_order_independent (l₁ l₂ : List Card)
    (h5 : 5 ≤ l₁.length) (h7 : l₁.length ≤ 7) (h : l₁.Perm l₂) :
    best_of_all_5card_combinations l₁ = best_of_all_5card_combinations l₂ := by
  unfold best_of_all_5card_combinations
  exact (sublistsLen_map_perm 5 evaluate_5card_hand
    (fun s₁ s₂ hs => evaluate_5card_hand_perm hs) h).foldl_eq none

/-- C9 witness: a concrete 5-card hand and a reversal of it evaluate to
the same rank. -/
theorem C9_best_hand_order_independent_witness :
    5 ≤ ([⟨14, Suit.Spades⟩, ⟨2, Suit.Diamonds⟩, ⟨3, Suit.Clubs⟩,
            ⟨4, Suit.Hearts⟩, ⟨5, Suit.Clubs⟩] : List Card).length
      ∧ best_of_all_5card_combinations
          [⟨14, Suit.Spades⟩, ⟨2, Suit.Diamonds⟩, ⟨3, Suit.Clubs⟩,
            ⟨4, Suit.Hearts⟩, ⟨5, Suit.Clubs⟩]
        = best_of_all_5card_combinations
          [⟨5, Suit.Clubs⟩, ⟨4, Suit.Hearts⟩, ⟨3, Suit.Clubs⟩,
            ⟨2, Suit.Diamonds⟩, ⟨14, Suit.Spades⟩] :=
  ⟨by decide,
    C9_best_hand_order_independent _ _ (by decide) (by decide) (by decide)⟩

/-- C10 counterexample: with two seats each contributing 2^63 (a valid
u64 amount), the single layer's u64 product 2^63 * 2 wraps to 0, so the
side pots total 0 while the contributions total 2^64 — conservation
fails for an in-range input. -/
theorem C10_counterexample :
    ((compute_side_pots [(0, 2 ^ 63), (1, 2 ^ 63)]).map SidePot.amount).sum
        = 0
      ∧ ([(0, 2 ^ 63), (1, 2 ^ 63)].map
          (fun (e : Nat × Nat) => e.2)).sum = 2 ^ 64
      ∧ (0 : Nat) ≠ 2 ^ 64 := by
  refine ⟨rfl, rfl, by decide⟩

/-- C10 (amended): whenever the total of the contributions map fits in a
u64 — in particular in any game state where the committed chips came out
of u64 stacks without overflow — the sum of the `amount` fields over all
side pots returned by `compute_side_pots` equals the sum of all
contributions: no committed chip is lost or duplicated when the pot is
split into layers. Without that bound the layer product
`level_diff * eligible.len()` wraps in u64. -/
theorem C10_side_pots_conserve_total (contributions : List (Nat × Nat))
    (h64 : (contributions.map (fun e => e.2)).sum < 2 ^ 64) :
    ((compute_side_pots contributions).map SidePot.amount).sum
      = (contributions.map (fun e => e.2)).sum :=
  compute_side_pots_sum contributions h64

/-- C10 witness: the amended theorem at the three-way contributions
{seat0 ↦ 100, seat1 ↦ 200, seat2 ↦ 400}, whose total 700 fits a u64; the
three layers 300 + 200 + 200 indeed re-total 700. -/
theorem C10_side_pots_conserve_total_witness :
    ((compute_side_pots [(0, 100), (1, 200), (2, 400)]).map
        SidePot.amount).sum
      = ([(0, 100), (1, 200), (2, 400)].map
          (fun (e : Nat × Nat) => e.2)).sum :=
  C10_side_pots_conserve_total [(0, 100), (1, 200), (2, 400)] (by decide)

/-- C5 counterexample: on contributions {seat0 ↦ 100, seat1 ↦ 200, seat2 ↦ 400}
the layer amounts produced by `compute_side_pots` are 300, 200, 200 — the top
layer is 400 − 200 = 200 chips, not the 100 chips the claim expects. -/
theorem C5_counterexample :
    (compute_side_pots [(0, 100), (1, 200), (2, 400)]).map SidePot.amount
        = [300, 200, 200]
      ∧ (compute_side_pots [(0, 100), (1, 200), (2, 400)]).map SidePot.amount
        ≠ [300, 200, 100] := by
  decide

/-- C5 (amended): `compute_side_pots` on the contributions map
{seat0 ↦ 100, seat1 ↦ 200, seat2 ↦ 400} — in any iteration order of the
map — returns exactly three pots: 300 chips for seats {0,1,2}, 200 chips for
seats {1,2}, and 200 chips (the uncalled excess 400 − 200) for seat {2}. -/
theorem C5_three_way_side_pots (l : List (Nat × Nat))
    (h : l.Perm [(0, 100), (1, 200), (2, 400)]) :
    compute_side_pots l
      = [⟨300, [0, 1, 2]⟩, ⟨200, [1, 2]⟩, ⟨200, [2]⟩] := by
  obtain ⟨x, y, z, rfl⟩ : ∃ x y z, l = [x, y, z] := by
    have hlen := h.length_eq
    rcases l with _ | ⟨x, _ | ⟨y, _ | ⟨z, _ | ⟨w, t⟩⟩⟩⟩
    · simp at hlen
    · simp at hlen
    · simp at hlen
    · exact ⟨x, y, z, rfl⟩
    · simp at hlen
  have hx : x ∈ ([(0, 100), (1, 200), (2, 400)] : List (Nat × Nat)) :=
    h.subset (by simp)
  have hy : y ∈ ([(0, 100), (1, 200), (2, 400)] : List (Nat × Nat)) :=
    h.subset (by simp)
  have hz : z ∈ ([(0, 100), (1, 200), (2, 400)] : List (Nat × Nat)) :=
    h.subset (by simp)
  simp only [List.mem_cons, List.not_mem_nil, or_false] at hx hy hz
  rcases hx with rfl | rfl | rfl <;> rcases hy with rfl | rfl | rfl <;>
    rcases hz with rfl | rfl | rfl <;>
      first
      | exact absurd h (by decide)
      | decide

/-- C5 witness: the amended statement instantiated at the map in its given
order. -/
theorem C5_three_way_side_pots_witness :
    compute_side_pots [(0, 100), (1, 200), (2, 400)]
      = [⟨300, [0, 1, 2]⟩, ⟨200, [1, 2]⟩, ⟨200, [2]⟩] :=
  C5_three_way_side_pots _ (List.Perm.refl _)

/-- C1: starting a hand on the heads-up table of the repository's own
test (two 10,000 stacks, blinds 50/100, no ante) puts the dealer button
on seat 0 while the `BlindsPosted` event records the small blind at
seat 1 and the big blind at seat 0 — the dealer posts the big blind, so
`dealer_button ≠ sb_seat`, contradicting the claim, the spec and the
repository's test `heads_up_button_is_small_blind_and_second_player_is_big_blind`. -/
theorem C1_heads_up_dealer_posts_big_blind :
    (match start_hand heads_up_table heads_up_deck 1 with
     | Except.ok r => some (r.1.dealer_button,
         r.2.history.getD 1 (HandEventKind.HandFinished 0 0))
     | Except.error _ => none)
      = some (some 0,
          HandEventKind.BlindsPosted 0 (some (1, 50)) (some (0, 100)) []) := by
  decide

/-- `HandEngine.push_event` leaves `side_pots` unchanged. -/
theorem push_event_side_pots (e : HandEngine) (k : HandEventKind) :
    (e.push_event k).side_pots = e.side_pots := rfl

/-- The showdown winner scan never touches `side_pots`. -/
theorem showdown_scan_side_pots (t : Table) (board : List Card) :
    ∀ (seats : List Nat) (best : Option Nat) (winners : List Nat)
      (e : HandEngine),
      (showdown_scan t board seats best winners e).2.2.side_pots
        = e.side_pots := by
  intro seats
  induction seats with
  | nil => intro best winners e; rfl
  | cons seat rest ih =>
    intro best winners e
    unfold showdown_scan
    rcases hseat : t.seats.getD seat none with _ | p <;> simp only [hseat]
    · exact ih _ _ _
    · split_ifs with hf
      · exact ih _ _ _
      · cases best with
        | none => exact ih _ _ _
        | some br =>
          dsimp only
          split_ifs with h1 h2 <;> exact ih _ _ _

/-- The award loop never touches `side_pots`. -/
theorem award_winners_side_pots :
    ∀ (ws : List Nat) (share remainder : Nat) (t : Table) (e : HandEngine),
      (award_winners ws share remainder t e).2.side_pots = e.side_pots := by
  intro ws
  induction ws with
  | nil => intro share remainder t e; rfl
  | cons seat rest ih =>
    intro share remainder t e
    unfold award_winners
    rcases hseat : t.seats.getD seat none with _ | p <;> simp only [hseat]
    · exact ih _ _ _ _
    · exact ih _ _ _ _

/-- Distributing one pot never touches `side_pots`. -/
theorem distribute_pot_side_pots (board : List Card) (sp : SidePot)
    (t : Table) (e : HandEngine) :
    (distribute_pot board sp t e).2.side_pots = e.side_pots := by
  unfold distribute_pot
  split_ifs with h0
  · rfl
  · dsimp only
    split_ifs with hw
    · exact showdown_scan_side_pots t board sp.eligible_seats none [] e
    · exact (award_winners_side_pots _ _ _ _ _).trans
        (showdown_scan_side_pots t board sp.eligible_seats none [] e)

/-- The pot loop never touches `side_pots`. -/
theorem distribute_pots_side_pots (board : List Card) :
    ∀ (ps : List SidePot) (t : Table) (e : HandEngine),
      (distribute_pots board ps t e).2.side_pots = e.side_pots := by
  intro ps
  induction ps with
  | nil => intro t e; rfl
  | cons sp rest ih =>
    intro t e
    unfold distribute_pots
    exact (ih _ _).trans (distribute_pot_side_pots board sp t e)

/-- Every pot of `side_pots_loop` has as eligible seats exactly the map
of the entries whose contribution reaches some level that occurs in the
processed suffix. -/
theorem side_pots_loop_eligible (entries : List (Nat × Nat)) :
    ∀ (r : List (Nat × Nat)) (prev : Nat) (sp : SidePot),
      sp ∈ side_pots_loop entries r prev →
      ∃ L, (∃ x, x ∈ r ∧ x.2 = L)
        ∧ sp.eligible_seats
            = (entries.filter (fun e => L ≤ e.2)).map (fun e => e.1) := by
  intro r
  induction r with
  | nil => intro prev sp h; simp [side_pots_loop] at h
  | cons hd tl ih =>
    intro prev sp h
    obtain ⟨s, a⟩ := hd
    by_cases hskip : a = prev
    · rw [show side_pots_loop entries ((s, a) :: tl) prev
          = side_pots_loop entries tl prev from by
        simp [side_pots_loop, hskip]] at h
      obtain ⟨L, ⟨x, hx, hxL⟩, helig⟩ := ih prev sp h
      exact ⟨L, ⟨x, List.mem_cons_of_mem _ hx, hxL⟩, helig⟩
    · by_cases hemp :
        (((entries.filter (fun e => a ≤ e.2)).map (fun e => e.1)).isEmpty : Bool)
      · rw [show side_pots_loop entries ((s, a) :: tl) prev
            = side_pots_loop entries tl a from by
          simp only [side_pots_loop, if_neg hskip]
          rw [if_pos hemp]] at h
        obtain ⟨L, ⟨x, hx, hxL⟩, helig⟩ := ih a sp h
        exact ⟨L, ⟨x, List.mem_cons_of_mem _ hx, hxL⟩, helig⟩
      · rw [show side_pots_loop entries ((s, a) :: tl) prev
            = { amount := (a - prev)
                  * ((entries.filter (fun e => a ≤ e.2)).map (fun e => e.1)).length
                  % 2 ^ 64,
                eligible_seats :=
                  (entries.filter (fun e => a ≤ e.2)).map (fun e => e.1) }
                :: side_pots_loop entries tl a from by
          simp only [side_pots_loop, if_neg hskip]
          rw [if_neg (by simp [hemp])]] at h
        rcases List.mem_cons.mp h with hhd | htl
        · exact ⟨a, ⟨(s, a), List.mem_cons_self _ _, rfl⟩, by rw [hhd]⟩
        · obtain ⟨L, ⟨x, hx, hxL⟩, helig⟩ := ih a sp htl
          exact ⟨L, ⟨x, List.mem_cons_of_mem _ hx, hxL⟩, helig⟩

/-- Eligibility of a produced side pot is exactly "contribution reached
the pot's (positive) level", with no regard to folded status. -/
theorem compute_side_pots_eligible (l : List (Nat × Nat)) (sp : SidePot)
    (hsp : sp ∈ compute_side_pots l) :
    ∃ L, 0 < L ∧ ∀ s,
      (s ∈ sp.eligible_seats ↔ ∃ c, (s, c) ∈ l ∧ L ≤ c) := by
  unfold compute_side_pots at hsp
  by_cases hemp : ((l.filter (fun e => e.2 ≠ 0)).isEmpty : Bool)
  · rw [if_pos hemp] at hsp
    simp at hsp
  · rw [if_neg hemp] at hsp
    obtain ⟨L, ⟨x, hxr, hxL⟩, helig⟩ :=
      side_pots_loop_eligible
        ((l.filter (fun e => e.2 ≠ 0)).insertionSort byAmount)
        ((l.filter (fun e => e.2 ≠ 0)).insertionSort byAmount) 0 sp hsp
    have hxent : x ∈ l.filter (fun e => e.2 ≠ 0) :=
      ((List.perm_insertionSort byAmount _).mem_iff).mp hxr
    have hL0 : 0 < L := by
      have hx0 := List.of_mem_filter hxent
      simp only [ne_eq, decide_not, Bool.not_eq_true', decide_eq_false_iff_not] at hx0
      omega
    refine ⟨L, hL0, fun s => ?_⟩
    rw [helig]
    constructor
    · intro hs
      obtain ⟨x', hx', hx's⟩ := List.mem_map.mp hs
      have hx'm := List.mem_filter.mp hx'
      have hx'sorted : x' ∈ l.filter (fun e => e.2 ≠ 0) :=
        ((List.perm_insertionSort byAmount _).mem_iff).mp hx'm.1
      have hx'l : x' ∈ l := List.mem_of_mem_filter hx'sorted
      refine ⟨x'.2, ?_, by simpa using hx'm.2⟩
      rw [← hx's]
      simpa using hx'l
    · rintro ⟨c, hcl, hLc⟩
      have hce : (s, c) ∈ l.filter (fun e => e.2 ≠ 0) := by
        refine List.mem_filter.mpr ⟨hcl, ?_⟩
        simp only [ne_eq, decide_not, Bool.not_eq_true', decide_eq_false_iff_not,
          decide_eq_true_eq]
        omega
      have hcs : (s, c)
          ∈ (l.filter (fun e => e.2 ≠ 0)).insertionSort byAmount :=
        ((List.perm_insertionSort byAmount _).mem_iff).mpr hce
      exact List.mem_map.mpr
        ⟨(s, c), List.mem_filter.mpr ⟨hcs, by simpa using hLc⟩, rfl⟩

/-- C2 counterexample: at a showdown where seat 0 folded after
contributing 100, the single produced side pot lists the folded seat 0
among its `eligible_seats`. -/
theorem C2_counterexample :
    (finish_hand_with_showdown c2_table c2_engine).2.side_pots
        = [⟨300, [0, 1, 2]⟩]
      ∧ (c2_table.seats.getD 0 none).map PlayerAtTable.status
        = some PlayerStatus.Folded
      ∧ 0 ∈ ((finish_hand_with_showdown c2_table c2_engine).2.side_pots.getD 0
          ⟨0, []⟩).eligible_seats := by
  decide

/-- C2 (amended): at showdown the stored side pots are exactly
`compute_side_pots contributions`, and each pot's `eligible_seats` are
exactly the seats whose total contribution reached the pot's (positive)
level — regardless of folded status; folded seats are only excluded
later, when the pot is awarded. -/
theorem C2_side_pot_eligibility (t : Table) (e : HandEngine) :
    (finish_hand_with_showdown t e).2.side_pots
        = compute_side_pots e.contributions
    ∧ ∀ sp ∈ compute_side_pots e.contributions, ∃ L, 0 < L ∧
        ∀ s, (s ∈ sp.eligible_seats ↔ ∃ c, (s, c) ∈ e.contributions ∧ L ≤ c) := by
  constructor
  · unfold finish_hand_with_showdown
    exact distribute_pots_side_pots _ _ _ _
  · intro sp hsp
    exact compute_side_pots_eligible e.contributions sp hsp

/-- C2 witness: the amended theorem applied at the concrete folded-seat
showdown; the single 300-chip pot's eligibility level makes exactly
seats 0, 1 and 2 eligible. -/
theorem C2_side_pot_eligibility_witness :
    (finish_hand_with_showdown c2_table c2_engine).2.side_pots
        = compute_side_pots c2_engine.contributions
    ∧ (∃ L, 0 < L ∧ ∀ s,
        (s ∈ (SidePot.mk 300 [0, 1, 2]).eligible_seats
          ↔ ∃ c, (s, c) ∈ c2_engine.contributions ∧ L ≤ c)) :=
  ⟨(C2_side_pot_eligibility c2_table c2_engine).1,
   (C2_side_pot_eligibility c2_table c2_engine).2 ⟨300, [0, 1, 2]⟩ (by decide)⟩

/-- C3: at the concrete showdown `c3_table`/`c3_engine` (600 chips
committed, top layer owned solely by the folded seat 2), the
`PotAwarded` events total only 300 chips although `pot.total` is 600 and
the side-pot layers do account for all 600 — the 300-chip top layer is
skipped because its only eligible seat folded, so chips vanish. -/
theorem C3_showdown_loses_uncalled_chips :
    pot_awarded_total (finish_hand_with_showdown c3_table c3_engine).2.history
        = 300
    ∧ c3_engine.pot_total = 600
    ∧ ((compute_side_pots c3_engine.contributions).map SidePot.amount).sum = 600
    ∧ (300 : Nat) ≠ 600 := by
  decide

/-- `advance_if_needed` can only fail with `Internal` (on the `Showdown`
street). -/
theorem advance_if_needed_error (t : Table) (e : HandEngine)
    (t' : Table) (e' : HandEngine) (err : EngineError)
    (h : advance_if_needed t e = (t', e', some err)) :
    err = EngineError.Internal := by
  rcases hst : t.street <;> simp only [advance_if_needed, hst] at h
  · exact Option.noConfusion (congrArg (fun x => x.2.2) h)
  · exact Option.noConfusion (congrArg (fun x => x.2.2) h)
  · exact Option.noConfusion (congrArg (fun x => x.2.2) h)
  · exact Option.noConfusion (congrArg (fun x => x.2.2) h)
  · exact (Option.some.inj (congrArg (fun x => x.2.2) h)).symm

/-- The shared action tail can only fail with `Internal`. -/
theorem apply_action_tail_error (t : Table) (e : HandEngine) (seat : Nat)
    (t' : Table) (e' : HandEngine) (err : EngineError)
    (h : apply_action_tail t e seat = (t', e', some err)) :
    err = EngineError.Internal := by
  unfold apply_action_tail at h
  dsimp only at h
  split_ifs at h with h1 h2
  · exact Option.noConfusion (congrArg (fun x => x.2.2) h)
  · exact advance_if_needed_error _ _ _ _ _ h
  · exact Option.noConfusion (congrArg (fun x => x.2.2) h)

/-- `apply_action` leaves both the table and the engine untouched on
every error other than the `Internal` advance-on-Showdown error: all
checks run before any mutation. -/
theorem apply_action_error_frame (t : Table) (e : HandEngine)
    (a : PlayerAction) (t' : Table) (e' : HandEngine) (err : EngineError)
    (h : apply_action t e a = (t', e', some err))
    (hint : err ≠ EngineError.Internal) :
    t' = t ∧ e' = e := by
  unfold apply_action at h
  by_cases h1 : ¬ t.hand_in_progress
  · rw [if_pos h1] at h
    exact ⟨(congrArg (fun x => x.1) h).symm, (congrArg (fun x => x.2.1) h).symm⟩
  · rw [if_neg h1] at h
    by_cases h2 : t.seats.length ≤ a.seat
    · rw [if_pos h2] at h
      exact ⟨(congrArg (fun x => x.1) h).symm, (congrArg (fun x => x.2.1) h).symm⟩
    · rw [if_neg h2] at h
      rcases hseat : t.seats.getD a.seat none with _ | p <;> simp only [hseat] at h
      · exact ⟨(congrArg (fun x => x.1) h).symm, (congrArg (fun x => x.2.1) h).symm⟩
      · by_cases h3 : p.player_id ≠ a.player_id
        · rw [if_pos h3] at h
          exact ⟨(congrArg (fun x => x.1) h).symm, (congrArg (fun x => x.2.1) h).symm⟩
        · rw [if_neg h3] at h
          by_cases h4 : e.current_actor ≠ some a.seat
          · rw [if_pos h4] at h
            exact ⟨(congrArg (fun x => x.1) h).symm,
              (congrArg (fun x => x.2.1) h).symm⟩
          · rw [if_neg h4] at h
            rcases hval : validate_action p a.kind e.betting with _ | verr <;>
              simp only [hval] at h
            · exact absurd (apply_action_tail_error _ _ _ _ _ _ h) hint
            · exact ⟨(congrArg (fun x => x.1) h).symm,
                (congrArg (fun x => x.2.1) h).symm⟩

/-- A bust-call error never changes the result except through the
`total_entries` snapshot taken before the registration lookup. -/
theorem bust_after_snapshot_error (t1 : Tournament) (pid : Nat)
    (r : Tournament) (err : TournamentError)
    (h : Tournament.bust_after_snapshot t1 pid = (r, .error err)) :
    r = t1 := by
  unfold Tournament.bust_after_snapshot at h
  rcases hl : t1.reg_lookup pid with _ | reg <;> simp only [hl] at h
  · exact (congrArg (fun x => x.1) h).symm
  · by_cases hb : reg.is_busted
    · rw [if_pos hb] at h
      exact (congrArg (fun x => x.1) h).symm
    · rw [if_neg hb] at h
      exact Except.noConfusion (congrArg (fun x => x.2) h)

/-- `mark_player_busted` on error leaves every field unchanged except
possibly the `total_entries` snapshot. -/
theorem mark_player_busted_error_frame (t : Tournament) (pid : Nat)
    (r : Tournament) (err : TournamentError)
    (h : t.mark_player_busted pid = (r, .error err)) :
    r = { t with total_entries := r.total_entries } := by
  unfold Tournament.mark_player_busted at h
  by_cases h1 : t.status ≠ TournamentStatus.Running
  · rw [if_pos h1] at h
    have hr : t = r := congrArg (fun x => x.1) h
    subst hr
    rfl
  · rw [if_neg h1] at h
    by_cases h2 : t.active_player_count ≤ 1
    · rw [if_pos h2] at h
      have hr : t = r := congrArg (fun x => x.1) h
      subst hr
      rfl
    · rw [if_neg h2] at h
      have hr := bust_after_snapshot_error _ _ _ _ h
      subst hr
      by_cases h3 : t.total_entries = 0
      · rw [if_pos h3]
      · rw [if_neg h3]

/-- C4 (amended): `apply_action` leaves the table, engine and history
unchanged on every error except the `Internal` advance-on-Showdown slip,
and `mark_player_busted` leaves the tournament unchanged on error except
for the `total_entries` snapshot it takes before looking the player
up. -/
theorem C4_error_atomicity :
    (∀ (t : Table) (e : HandEngine) (a : PlayerAction)
        (t' : Table) (e' : HandEngine) (err : EngineError),
      apply_action t e a = (t', e', some err) →
      err ≠ EngineError.Internal → t' = t ∧ e' = e)
    ∧ (∀ (tr : Tournament) (pid : Nat) (r : Tournament)
        (err : TournamentError),
      tr.mark_player_busted pid = (r, .error err) →
      r = { tr with total_entries := r.total_entries }) :=
  ⟨apply_action_error_frame, mark_player_busted_error_frame⟩

/-- C4 counterexample: (a) busting an unregistered player in a running
tournament whose `total_entries` is still 0 returns `NotRegistered` yet
leaves `total_entries` changed from 0 to 2; (b) a `Check` applied on a
hand whose street is already `Showdown` returns the `Internal` error
after having appended the `PlayerActed` event to the history. -/
theorem C4_counterexample :
    ((c4_tournament.mark_player_busted 99).2
        = Except.error (TournamentError.NotRegistered 99 5)
      ∧ (c4_tournament.mark_player_busted 99).1.total_entries = 2
      ∧ c4_tournament.total_entries = 0)
    ∧ ((apply_action c4_table c4_engine ⟨1, 0, PlayerActionKind.Check⟩).2.2
        = some EngineError.Internal
      ∧ (apply_action c4_table c4_engine ⟨1, 0, PlayerActionKind.Check⟩).2.1.history
        ≠ c4_engine.history) := by
  decide

/-- C4 witness: the amended theorem applied to a `NoActiveHand` error and
to the `InvalidStatus` bust error at concrete states. -/
theorem C4_error_atomicity_witness :
    (apply_action heads_up_table c4_engine ⟨1, 0, PlayerActionKind.Check⟩
        = (heads_up_table, c4_engine, some EngineError.NoActiveHand))
    ∧ (heads_up_table = heads_up_table ∧ c4_engine = c4_engine)
    ∧ ({ c4_tournament with total_entries := 2 } : Tournament)
        = { c4_tournament with total_entries :=
              ({ c4_tournament with total_entries := 2 } : Tournament).total_entries } :=
  ⟨by decide,
   C4_error_atomicity.1 heads_up_table c4_engine ⟨1, 0, PlayerActionKind.Check⟩
     heads_up_table c4_engine EngineError.NoActiveHand (by decide) (by decide),
   C4_error_atomicity.2 c4_tournament 99 { c4_tournament with total_entries := 2 }
     (TournamentError.NotRegistered 99 5) (by decide)⟩

/-- C7 counterexample: in a tournament whose config permits re-entry
(2 entries per player) and which is still `Registering` with spare
capacity, registering the already-registered (busted) player 1 again is
rejected with `AlreadyRegistered`; no stack reset happens. -/
theorem C7_counterexample :
    Tournament.register_player c7_tournament 1
      = (c7_tournament, some (TournamentError.AlreadyRegistered 1 7)) := by
  decide

/-- C7 (amended): in `Registering` status with free capacity, registering
an already-registered player is always rejected with
`AlreadyRegistered`, and the tournament is unchanged — re-entry is not
implemented regardless of `reentry_allowed`/`max_entries_per_player`. -/
theorem C7_reregistration_rejected (t : Tournament) (pid : Nat)
    (hstatus : t.status = TournamentStatus.Registering)
    (hcap : t.registrations.length < t.max_players)
    (hdup : (t.reg_lookup pid).isSome) :
    t.register_player pid
      = (t, some (TournamentError.AlreadyRegistered pid t.id)) := by
  unfold Tournament.register_player
  rw [if_neg (fun hne => hne hstatus), if_neg (by omega), if_pos hdup]

/-- C7 witness: the amended theorem at the concrete re-entry
tournament. -/
theorem C7_reregistration_rejected_witness :
    Tournament.register_player c7_tournament 1
      = (c7_tournament,
          some (TournamentError.AlreadyRegistered 1 c7_tournament.id)) :=
  C7_reregistration_rejected c7_tournament 1 rfl (by decide) (by decide)

end Poker
